import Mathlib

/-!
# Wine MIDI mapper driver (dlls/midimap/midimap.c)

A shallow embedding of the mapper: the port table, the per-session channel
map and running status, the routing of short messages (modData), the
buffer flag transitions (modPrepare, modUnprepare, modLongData), session
open and close, and the nine-byte datagram handed to sendto.

Conventions of the embedding.

* A DWORD_PTR is a natural number; the width is 64 bits (the frame is
  1 + sizeof(DWORD_PTR) = BUFFER_SIZE = 9 bytes), so the C complement
  masks are written out as 64-bit constants.
* Pointers are addresses (natural numbers, 0 is NULL).  A pointer into
  midiOutPorts is the index of the port; a channel map entry is
  none (NULL) or some index.
* Process memory that holds sessions is heap: the block readable at an
  address, or none when IsBadReadPtr rejects the range.  What HeapFree
  leaves at a freed address is decided by the allocator, not by the driver,
  and is an argument of modClose.
* Dereferencing NULL or a dangling port pointer is a fault: the operation
  yields none.
* TRACE, ERR and FIXME write to the debug log only and are not modelled.
-/

namespace Midimap

/-! ## Constants -/

/-- BUFFER_SIZE, the length of every datagram. -/
def BUFFER_SIZE : Nat := 9

def REQUEST_CODE_MIDI_SHORT : Nat := 1
def REQUEST_CODE_MIDI_LONG : Nat := 2
def REQUEST_CODE_MIDI_PREPARE : Nat := 3
def REQUEST_CODE_MIDI_UNPREPARE : Nat := 4
def REQUEST_CODE_MIDI_OPEN : Nat := 5
def REQUEST_CODE_MIDI_CLOSE : Nat := 6
def REQUEST_CODE_MIDI_RESET : Nat := 7

/-! Values of mmsystem.h and mmddk.h, which the driver includes. -/

def MMSYSERR_NOERROR : Nat := 0
def MMSYSERR_ERROR : Nat := 1
def MMSYSERR_BADDEVICEID : Nat := 2
def MMSYSERR_NOMEM : Nat := 7
def MMSYSERR_NOTSUPPORTED : Nat := 8
def MMSYSERR_INVALPARAM : Nat := 11
def MIDIERR_UNPREPARED : Nat := 64
def MIDIERR_STILLPLAYING : Nat := 65
def MIDIERR_INVALIDSETUP : Nat := 69

def MHDR_DONE : Nat := 1
def MHDR_PREPARED : Nat := 2
def MHDR_INQUEUE : Nat := 4

def MOM_OPEN : Nat := 0x3C7
def MOM_CLOSE : Nat := 0x3C8
def MOM_DONE : Nat := 0x3C9

def CALLBACK_TYPEMASK : Nat := 0x00070000

/-- The value of offsetof(MIDIHDR, dwOffset) with 64-bit pointers.  MIDIHDR
is declared in mmsystem.h under byte packing, so the fields before
dwOffset follow each other without padding: lpData 8, dwBufferLength 4,
dwBytesRecorded 4, dwUser 8, dwFlags 4, lpNext 8, reserved 8. -/
def offsetof_MIDIHDR_dwOffset : Nat := 44

/-- LOWORD(l) is (WORD)(l and 0xffff). -/
def LOWORD (l : Nat) : Nat := l % 65536

/-- HIWORD(l) is (WORD)(l >> 16). -/
def HIWORD (l : Nat) : Nat := (l >>> 16) % 65536

/-- LOBYTE(w) is (BYTE)(w and 0xff). -/
def LOBYTE (w : Nat) : Nat := w % 256

/-- HIBYTE(w) is (BYTE)(w >> 8). -/
def HIBYTE (w : Nat) : Nat := (w >>> 8) % 256

/-- The constant (DWORD_PTR)~0x0F. -/
def NOT_0x0F : Nat := 0xFFFFFFFFFFFFFFF0

/-- The constant (DWORD_PTR)~0x0000FF00. -/
def NOT_0x0000FF00 : Nat := 0xFFFFFFFFFFFF00FF

/-- The constant (DWORD)~(MHDR_DONE|MHDR_INQUEUE). -/
def NOT_DONE_INQUEUE : Nat := 0xFFFFFFFA

/-- The constant (DWORD)~MHDR_DONE. -/
def NOT_DONE : Nat := 0xFFFFFFFE

/-- The constant (DWORD)~MHDR_INQUEUE. -/
def NOT_INQUEUE : Nat := 0xFFFFFFFB

/-- The constant (DWORD)~MHDR_PREPARED. -/
def NOT_PREPARED : Nat := 0xFFFFFFFD

/-! ## Data model -/

/-- The struct tagMIDIOUTPORT.  name holds the WCHAR code units before the
terminator; lpbPatch is NULL (none) or a byte table; aChn is read at
indices 0..15. -/
structure MIDIOUTPORT where
  name : List Nat
  loaded : Int
  hMidi : Nat
  uDevID : Nat
  lpbPatch : Option (Nat → Nat)
  aChn : Nat → Nat

/-- The fields of MIDIOPENDESC that the driver passes on to DriverCallback. -/
structure MIDIOPENDESC where
  hMidi : Nat
  dwCallback : Nat
  dwInstance : Nat

/-- The struct tagMIDIMAPDATA.  ChannelMap is read at indices 0..15. -/
structure MIDIMAPDATA where
  self : Nat
  ChannelMap : Nat → Option Nat
  midiDesc : MIDIOPENDESC
  runningStatus : Nat
  wCbFlags : Nat

/-- The fields of MIDIHDR that the driver reads or writes. -/
structure MIDIHDR where
  lpData : Nat
  dwFlags : Nat

/-- One call of DriverCallback, as issued by MIDIMAP_NotifyClient. -/
structure Notification where
  dwCallback : Nat
  wCbFlags : Nat
  hMidi : Nat
  wMsg : Nat
  dwInstance : Nat
  dwParam1 : Nat
  dwParam2 : Nat

/-- The process-wide state: the statics midiOutPorts (numMidiOutPorts is its
length) and send_buffer, the memory holding sessions and caller buffers, and
the two outputs of the driver: the datagrams given to sendto and the calls
of DriverCallback, oldest first. -/
structure Driver where
  midiOutPorts : List MIDIOUTPORT
  send_buffer : Nat → Nat
  heap : Nat → Option MIDIMAPDATA
  hdrs : Nat → MIDIHDR
  sent : List (List Nat)
  notified : List Notification

/-- The static numMidiOutPorts. -/
def numMidiOutPorts (d : Driver) : Nat := d.midiOutPorts.length

/-! ## Protocol encoder -/

/-- Byte i of the in-memory (little-endian) representation of a DWORD_PTR. -/
def byteOf (param : Nat) (i : Nat) : Nat := (param >>> (8 * i)) % 256

/-- The eight bytes memcpy reads from the address of a DWORD_PTR. -/
def le64 (param : Nat) : List Nat := (List.range 8).map (byteOf param)

/-- The value whose in-memory representation is the given bytes. -/
def unle64 : List Nat → Nat
  | [] => 0
  | b :: bs => b + 256 * unle64 bs

/-- The function request_midi_data: sendto of the first BUFFER_SIZE bytes. -/
def request_midi_data (d : Driver) : Driver :=
  { d with sent := d.sent ++ [(List.range BUFFER_SIZE).map d.send_buffer] }

/-- Store of one byte at send_buffer[0]. -/
def setCode (d : Driver) (code : Nat) : Driver :=
  { d with send_buffer := Function.update d.send_buffer 0 code }

/-- The function request_midi_short. -/
def request_midi_short (d : Driver) (param : Nat) : Driver :=
  let d1 := setCode d REQUEST_CODE_MIDI_SHORT
  let d2 := { d1 with send_buffer := fun i =>
    if 1 ≤ i ∧ i < 1 + 8 then byteOf param (i - 1) else d1.send_buffer i }
  request_midi_data d2

/-- The function request_midi_long: nothing is sent. -/
def request_midi_long (d : Driver) (_lpMidiHdr : Nat) : Driver := d

def request_midi_prepare (d : Driver) : Driver :=
  request_midi_data (setCode d REQUEST_CODE_MIDI_PREPARE)

def request_midi_unprepare (d : Driver) : Driver :=
  request_midi_data (setCode d REQUEST_CODE_MIDI_UNPREPARE)

def request_midi_open (d : Driver) : Driver :=
  request_midi_data (setCode d REQUEST_CODE_MIDI_OPEN)

def request_midi_close (d : Driver) : Driver :=
  request_midi_data (setCode d REQUEST_CODE_MIDI_CLOSE)

def request_midi_reset (d : Driver) : Driver :=
  request_midi_data (setCode d REQUEST_CODE_MIDI_RESET)

/-! ## Session validity and notification -/

/-- The function MIDIMAP_IsBadData: the block must be readable and hold its
own address in self. -/
def MIDIMAP_IsBadData (d : Driver) (mm : Nat) : Bool :=
  match d.heap mm with
  | some m => m.self != mm
  | none => true

/-- The function MIDIMAP_NotifyClient. -/
def MIDIMAP_NotifyClient (d : Driver) (mom : MIDIMAPDATA) (wMsg dwParam1 dwParam2 : Nat) :
    Driver :=
  { d with notified := d.notified ++
      [{ dwCallback := mom.midiDesc.dwCallback, wCbFlags := mom.wCbFlags,
         hMidi := mom.midiDesc.hMidi, wMsg := wMsg, dwInstance := mom.midiDesc.dwInstance,
         dwParam1 := dwParam1, dwParam2 := dwParam2 }] }

/-- Store through the session pointer. -/
def storeSession (d : Driver) (mom : Nat) (m : MIDIMAPDATA) : Driver :=
  { d with heap := Function.update d.heap mom (some m) }

/-! ## Port table -/

/-- The test lstrcmpW(a, b) == 0.  lstrcmpW is a system function; it is
taken to return 0 exactly when the two names are the same sequence of
code units (exact display-name equality). -/
def lstrcmpW_eq (a b : List Nat) : Bool := a == b

/-- The first loop of MIDIMAP_FindPort, from index dev on. -/
def MIDIMAP_FindPort_exact (name : List Nat) : List MIDIOUTPORT → Nat → Option Nat
  | [], _ => none
  | p :: ps, dev =>
    if lstrcmpW_eq p.name name then some dev else MIDIMAP_FindPort_exact name ps (dev + 1)

/-- One step of the unsigned accumulation dev * 10 + c - 48. -/
def digitStep (dev c : Nat) : Nat := (dev * 10 + c + (2 ^ 32 - 48)) % 2 ^ 32

/-- The do-while loop of MIDIMAP_FindPort with ptr at code unit c. -/
def MIDIMAP_FindPort_digits (dev : Nat) (c : Nat) : List Nat → Nat
  | [] => digitStep dev c
  | c2 :: rest =>
    if 48 ≤ c2 ∧ c2 ≤ 57 then MIDIMAP_FindPort_digits (digitStep dev c) c2 rest
    else digitStep dev c

/-- The function MIDIMAP_FindPort: some dev when it returns TRUE. -/
def MIDIMAP_FindPort (ports : List MIDIOUTPORT) (name : List Nat) : Option Nat :=
  match MIDIMAP_FindPort_exact name ports 0 with
  | some dev => some dev
  | none =>
    match name with
    | c0 :: c1 :: rest =>
      if c0 = 35 ∧ 48 ≤ c1 ∧ c1 ≤ 57 then
        let dev := MIDIMAP_FindPort_digits 0 c1 rest
        if dev < ports.length then some dev else none
      else none
    | _ => none

/-! ## Configuration store -/

/-- One subkey enumerated by RegEnumKeyW under a scheme: whether
RegOpenKeyW succeeds, the default value (the port name) when its query
succeeds, and the value Channels when its query succeeds. -/
structure SchemeKey where
  opens : Bool
  port : Option (List Nat)
  Channels : Option Nat

/-- The values read under the key Multimedia/MIDIMap of the current user:
each is none when its RegQueryValueEx call fails. -/
structure MIDIMapKey where
  szPname : Option (List Nat)
  UseScheme : Option Nat
  CurrentScheme : Option (List Nat)
  CurrentInstrument : Option (List Nat)

/-- The registry as the driver reads it.  MIDIMap is none when the key of
the current user cannot be opened; Schemes is none when the key
Midi/Schemes cannot be opened, and otherwise gives for a scheme name its
subkeys in enumeration order, or none when the scheme cannot be opened. -/
structure Registry where
  MIDIMap : Option MIDIMapKey
  Schemes : Option (List Nat → Option (List SchemeKey))

/-! ## Channel map construction -/

/-- The function MIDIMAP_LoadSettingsDefault on the channel map of mom:
the result flag and the channel map afterwards. -/
def MIDIMAP_LoadSettingsDefault (ports : List MIDIOUTPORT) (cm : Nat → Option Nat)
    (port : Option (List Nat)) : Bool × (Nat → Option Nat) :=
  let dev : Nat :=
    match port with
    | none => 0
    | some name =>
      match MIDIMAP_FindPort ports name with
      | some dev => dev
      | none => 0
  if dev ≥ ports.length then (false, cm)
  else (true, fun i => if i < 16 then some dev else cm i)

/-- The inner loop of MIDIMAP_LoadSettingsScheme for one mask, from
channel 0 to channel 15. -/
def schemeBind (dev mask : Nat) (cm : Nat → Option Nat) : Nat → Option Nat :=
  (List.range 16).foldl
    (fun cm i => if mask &&& (1 <<< i) ≠ 0 then Function.update cm i (some dev) else cm) cm

/-- One iteration of the enumeration loop of MIDIMAP_LoadSettingsScheme;
each failing call is a continue. -/
def schemeStep (ports : List MIDIOUTPORT) (cm : Nat → Option Nat) (k : SchemeKey) :
    Nat → Option Nat :=
  if !k.opens then cm
  else
    match k.port with
    | none => cm
    | some port =>
      match MIDIMAP_FindPort ports port with
      | none => cm
      | some dev =>
        match k.Channels with
        | none => cm
        | some mask => schemeBind dev (mask % 2 ^ 32) cm

/-- The enumeration loop of MIDIMAP_LoadSettingsScheme over the subkeys. -/
def schemeFill (ports : List MIDIOUTPORT) (keys : List SchemeKey) (cm : Nat → Option Nat) :
    Nat → Option Nat :=
  keys.foldl (schemeStep ports) cm

/-- The function MIDIMAP_LoadSettingsScheme. -/
def MIDIMAP_LoadSettingsScheme (ports : List MIDIOUTPORT) (reg : Registry)
    (cm : Nat → Option Nat) (scheme : List Nat) : Bool × (Nat → Option Nat) :=
  let cm0 : Nat → Option Nat := fun i => if i < 16 then none else cm i
  match reg.Schemes with
  | none => (false, cm0)
  | some schemes =>
    match schemes scheme with
    | none => (false, cm0)
    | some keys => (true, schemeFill ports keys cm0)

/-- The function MIDIMAP_LoadSettings: the value of ret as a flag (the
interim value 2 is always replaced before the return) and the channel map
afterwards.  viaScheme is the outcome of the UseScheme branch, none when
ret is still 2 after it. -/
def MIDIMAP_LoadSettings (ports : List MIDIOUTPORT) (reg : Registry) (cm : Nat → Option Nat) :
    Bool × (Nat → Option Nat) :=
  match reg.MIDIMap with
  | none => MIDIMAP_LoadSettingsDefault ports cm none
  | some key =>
    match key.szPname with
    | some buffer => MIDIMAP_LoadSettingsDefault ports cm (some buffer)
    | none =>
      let viaScheme : Option (Bool × (Nat → Option Nat)) :=
        match key.UseScheme with
        | none => none
        | some out =>
          if out % 2 ^ 32 = 0 then none
          else
            match key.CurrentScheme with
            | none => none
            | some buffer =>
              let r := MIDIMAP_LoadSettingsScheme ports reg cm buffer
              if r.1 then some r
              else some (MIDIMAP_LoadSettingsDefault ports r.2 none)
      match viaScheme with
      | some r => r
      | none =>
        match key.CurrentInstrument with
        | some (c :: buffer) => MIDIMAP_LoadSettingsDefault ports cm (some (c :: buffer))
        | _ => MIDIMAP_LoadSettingsDefault ports cm none

/-! ## Session lifecycle -/

/-- One iteration of the loop of modOpen over chn: the port table
afterwards, or a fault when ChannelMap[chn] cannot be dereferenced. -/
def modOpen_channel (cm : Nat → Option Nat) (ports : List MIDIOUTPORT) (chn : Nat) :
    Option (List MIDIOUTPORT) :=
  match cm chn with
  | none => none
  | some dev =>
    match ports[dev]? with
    | none => none
    | some p =>
      if p.loaded ≠ 0 then some ports
      else some (ports.set dev { p with loaded := 1 })

/-- The function modOpen.  mom is the address HeapAlloc returns (0 when it
fails) and m0 the contents of the fresh block; lpDesc is none for NULL.
The handle stored through lpdwUser is mom.  On the paths that free the
fresh block the modelled memory is left as it was. -/
def modOpen (d : Driver) (reg : Registry) (mom : Nat) (m0 : MIDIMAPDATA)
    (lpDesc : Option MIDIOPENDESC) (dwFlags : Nat) : Option (Nat × Driver) :=
  if mom = 0 then some (MMSYSERR_NOMEM, d)
  else
    match lpDesc with
    | none => some (MMSYSERR_INVALPARAM, d)
    | some desc =>
      let r := MIDIMAP_LoadSettings d.midiOutPorts reg m0.ChannelMap
      if r.1 then
        let m : MIDIMAPDATA :=
          { self := mom, ChannelMap := r.2, midiDesc := desc, runningStatus := 0,
            wCbFlags := HIWORD (dwFlags &&& CALLBACK_TYPEMASK) }
        match (List.range 16).foldlM (modOpen_channel m.ChannelMap) d.midiOutPorts with
        | none => none
        | some ports =>
          let d1 := storeSession { d with midiOutPorts := ports } mom m
          let d2 := MIDIMAP_NotifyClient d1 m MOM_OPEN 0 0
          some (MMSYSERR_NOERROR, request_midi_open d2)
      else some (MIDIERR_INVALIDSETUP, d)

/-- One iteration of the loop of modClose over i. -/
def modClose_channel (cm : Nat → Option Nat) (ports : List MIDIOUTPORT) (i : Nat) :
    Option (List MIDIOUTPORT) :=
  match cm i with
  | none => some ports
  | some dev =>
    match ports[dev]? with
    | none => none
    | some p =>
      if p.loaded > 0 then some (ports.set dev { p with loaded := 0, hMidi := 0 })
      else some ports

/-- The function modClose.  The code frees the block with HeapFree and
writes nothing to it first; freed is what the allocator leaves readable
at the address afterwards (none when the range is no longer readable). -/
def modClose (d : Driver) (mom : Nat) (freed : Option MIDIMAPDATA) : Option (Nat × Driver) :=
  if MIDIMAP_IsBadData d mom then some (MMSYSERR_ERROR, d)
  else
    match d.heap mom with
    | none => none
    | some m =>
      match (List.range 16).foldlM (modClose_channel m.ChannelMap) d.midiOutPorts with
      | none => none
      | some ports =>
        let d1 := MIDIMAP_NotifyClient { d with midiOutPorts := ports } m MOM_CLOSE 0 0
        let d2 := { d1 with heap := Function.update d1.heap mom freed }
        some (MMSYSERR_NOERROR, request_midi_close d2)

/-! ## Message router -/

/-- The rewriting modData applies to dwParam for a voice message on a
loaded port: the change of channel, then the change of patch. -/
def modData_rewrite (port : MIDIOUTPORT) (chn dwParam : Nat) : Nat :=
  let p1 := (dwParam &&& NOT_0x0F) ||| (port.aChn chn % 2 ^ 32)
  if LOBYTE (LOWORD p1) &&& 0xF0 = 0xC0 then
    match port.lpbPatch with
    | some lpbPatch =>
      let patch := HIBYTE (LOWORD p1)
      (p1 &&& NOT_0x0000FF00) ||| (lpbPatch patch % 256)
    | none => p1
  else p1

/-- The part of modData after the running-status substitution: the
channel lookup and the switch on status and 0xF0. -/
def modData_dispatch (d : Driver) (mom : Nat) (m : MIDIMAPDATA) (status dwParam : Nat) :
    Option (Nat × Driver) :=
  let chn := status &&& 0x0F
  match m.ChannelMap chn with
  | none => some (MMSYSERR_NOERROR, d)
  | some dev =>
    let sel := status &&& 0xF0
    if sel = 0x80 ∨ sel = 0x90 ∨ sel = 0xA0 ∨ sel = 0xB0 ∨ sel = 0xC0 ∨ sel = 0xD0 ∨ sel = 0xE0
    then
      match d.midiOutPorts[dev]? with
      | none => none
      | some port =>
        let d1 :=
          if port.loaded > 0 then request_midi_short d (modData_rewrite port chn dwParam)
          else d
        some (MMSYSERR_NOERROR, storeSession d1 mom { m with runningStatus := status })
    else if sel = 0xF0 then
      let d1 := request_midi_short d dwParam
      if status ≤ 0xF7 then
        some (MMSYSERR_NOERROR, storeSession d1 mom { m with runningStatus := 0 })
      else some (MMSYSERR_NOERROR, d1)
    else some (MMSYSERR_NOERROR, d)

/-- The function modData: the result code and the state afterwards, or a
fault. -/
def modData (d : Driver) (mom : Nat) (dwParam : Nat) : Option (Nat × Driver) :=
  let status := LOBYTE (LOWORD dwParam)
  if MIDIMAP_IsBadData d mom then some (MMSYSERR_ERROR, d)
  else
    match d.heap mom with
    | none => none
    | some m =>
      if status < 0x80 then
        if m.runningStatus ≠ 0 then
          let status := m.runningStatus
          modData_dispatch d mom m status ((LOWORD dwParam <<< 8) ||| status)
        else some (MMSYSERR_NOERROR, d)
      else modData_dispatch d mom m status dwParam

/-- Store through the buffer pointer. -/
def storeFlags (d : Driver) (lpMidiHdr : Nat) (dwFlags : Nat) : Driver :=
  let hdr : MIDIHDR := { lpData := (d.hdrs lpMidiHdr).lpData, dwFlags := dwFlags }
  { d with hdrs := Function.update d.hdrs lpMidiHdr hdr }

/-- The function modLongData. -/
def modLongData (d : Driver) (mom : Nat) (lpMidiHdr : Nat) (_dwParam2 : Nat) : Option (Nat × Driver) :=
  if MIDIMAP_IsBadData d mom then some (MMSYSERR_ERROR, d)
  else
    match d.heap mom with
    | none => none
    | some m =>
      if lpMidiHdr = 0 then none
      else if (d.hdrs lpMidiHdr).dwFlags &&& MHDR_PREPARED = 0 then some (MIDIERR_UNPREPARED, d)
      else if (d.hdrs lpMidiHdr).dwFlags &&& MHDR_INQUEUE ≠ 0 then some (MIDIERR_STILLPLAYING, d)
      else
        let f1 := (d.hdrs lpMidiHdr).dwFlags &&& NOT_DONE
        let f2 := f1 ||| MHDR_INQUEUE
        let d1 := request_midi_long (storeFlags d lpMidiHdr f2) lpMidiHdr
        let d2 := storeSession d1 mom { m with runningStatus := 0 }
        let f3 := (d2.hdrs lpMidiHdr).dwFlags &&& NOT_INQUEUE
        let f4 := f3 ||| MHDR_DONE
        let d3 := storeFlags d2 lpMidiHdr f4
        some (MMSYSERR_NOERROR, MIDIMAP_NotifyClient d3 m MOM_DONE lpMidiHdr 0)

/-- The function modPrepare. -/
def modPrepare (d : Driver) (mom : Nat) (lpMidiHdr : Nat) (dwSize : Nat) : Nat × Driver :=
  if MIDIMAP_IsBadData d mom then (MMSYSERR_ERROR, d)
  else if dwSize < offsetof_MIDIHDR_dwOffset ∨ lpMidiHdr = 0 ∨ (d.hdrs lpMidiHdr).lpData = 0 then
    (MMSYSERR_INVALPARAM, d)
  else
    let d1 := request_midi_prepare d
    if (d1.hdrs lpMidiHdr).dwFlags &&& MHDR_PREPARED ≠ 0 then (MMSYSERR_NOERROR, d1)
    else
      let f1 := (d1.hdrs lpMidiHdr).dwFlags ||| MHDR_PREPARED
      let f2 := f1 &&& NOT_DONE_INQUEUE
      (MMSYSERR_NOERROR, storeFlags d1 lpMidiHdr f2)

/-- The function modUnprepare. -/
def modUnprepare (d : Driver) (mom : Nat) (lpMidiHdr : Nat) (dwSize : Nat) : Nat × Driver :=
  if MIDIMAP_IsBadData d mom then (MMSYSERR_ERROR, d)
  else if dwSize < offsetof_MIDIHDR_dwOffset ∨ lpMidiHdr = 0 ∨ (d.hdrs lpMidiHdr).lpData = 0 then
    (MMSYSERR_INVALPARAM, d)
  else
    let d1 := request_midi_unprepare d
    if (d1.hdrs lpMidiHdr).dwFlags &&& MHDR_PREPARED = 0 then (MMSYSERR_NOERROR, d1)
    else if (d1.hdrs lpMidiHdr).dwFlags &&& MHDR_INQUEUE ≠ 0 then (MIDIERR_STILLPLAYING, d1)
    else (MMSYSERR_NOERROR, storeFlags d1 lpMidiHdr ((d1.hdrs lpMidiHdr).dwFlags &&& NOT_PREPARED))

/-- The function modReset. -/
def modReset (d : Driver) (mom : Nat) : Nat × Driver :=
  if MIDIMAP_IsBadData d mom then (MMSYSERR_ERROR, d)
  else
    match d.heap mom with
    | none => (MMSYSERR_ERROR, d)
    | some m =>
      (MMSYSERR_NOERROR, request_midi_reset (storeSession d mom { m with runningStatus := 0 }))

/-! ## Observations and concrete states -/

/-- The datagrams sent so far in the state an operation ends in. -/
def framesOf (r : Option (Nat × Driver)) : Option (List (List Nat)) :=
  r.map fun x => x.2.sent

/-- The result code of an operation. -/
def codeOf (r : Option (Nat × Driver)) : Option Nat :=
  r.map fun x => x.1

/-- The running status of the session at mom in the state an operation ends in. -/
def runningStatusOf (mom : Nat) (r : Option (Nat × Driver)) : Option Nat :=
  r.bind fun x => (x.2.heap mom).map fun m => m.runningStatus

/-- Sequencing of two operations on the driver state. -/
def andThen (r : Option (Nat × Driver)) (f : Driver → Option (Nat × Driver)) :
    Option (Nat × Driver) :=
  r.bind fun x => f x.2

/-- The port MIDIMAP_drvOpen creates (named Midi Through Winlator, aChn[i] = i),
with a given loaded flag and patch table. -/
def winlatorPort (loaded : Int) (lpbPatch : Option (Nat → Nat)) : MIDIOUTPORT :=
  { name := [77, 105, 100, 105, 32, 84, 104, 114, 111, 117, 103, 104, 32,
             87, 105, 110, 108, 97, 116, 111, 114],
    loaded := loaded, hMidi := 0, uDevID := 0, lpbPatch := lpbPatch, aChn := fun i => i }

/-- A live session at address mom with a given channel map and running status. -/
def sessionAt (mom : Nat) (cm : Nat → Option Nat) (runningStatus : Nat) : MIDIMAPDATA :=
  { self := mom, ChannelMap := cm, midiDesc := { hMidi := 0, dwCallback := 0, dwInstance := 0 },
    runningStatus := runningStatus, wCbFlags := 0 }

/-- A driver state with the given ports, one session block at address 1000,
buffers whose lpData is non-NULL and whose flags are all dwFlags, and
nothing sent yet. -/
def driverWith (ports : List MIDIOUTPORT) (m : Option MIDIMAPDATA) (dwFlags : Nat) : Driver :=
  { midiOutPorts := ports, send_buffer := fun _ => 0,
    heap := fun a => if a = 1000 then m else none,
    hdrs := fun _ => { lpData := 1, dwFlags := dwFlags }, sent := [], notified := [] }

/-- A channel map that binds every channel to port 0. -/
def allToPort0 : Nat → Option Nat := fun _ => some 0

/-- A channel map that binds channel 1 to port 0 and leaves the others unbound. -/
def onlyChannel1 : Nat → Option Nat := fun i => if i = 1 then some 0 else none

/-- A state whose session has only channel 1 bound, to a loaded port, and
running status 0x91 (left by an earlier note-on on channel 1). -/
def mutedDriver : Driver :=
  driverWith [winlatorPort 1 none] (some (sessionAt 1000 onlyChannel1 0x91)) 0

/-- A state whose session binds every channel to the one loaded port. -/
def plainDriver : Driver :=
  driverWith [winlatorPort 1 none] (some (sessionAt 1000 allToPort0 0)) 0

/-- A registry that makes MIDIMAP_LoadSettings call
MIDIMAP_LoadSettingsDefault with the given optional port name: no MIDIMap
key at all for NULL, the value szPname for a name. -/
def defaultRegistry (port : Option (List Nat)) : Registry :=
  match port with
  | none => { MIDIMap := none, Schemes := none }
  | some name =>
    { MIDIMap := some { szPname := some name, UseScheme := none, CurrentScheme := none,
                        CurrentInstrument := none },
      Schemes := none }

/-- The port MIDIMAP_LoadSettingsDefault is specified to choose: the one the
name resolves to, or port 0 when the name is absent or does not resolve. -/
def defaultPort (ports : List MIDIOUTPORT) (port : Option (List Nat)) : Nat :=
  match port with
  | none => 0
  | some name => (MIDIMAP_FindPort ports name).getD 0

/-- The channel map of the session at mom in the state an operation ends in. -/
def channelMapOf (mom : Nat) (r : Option (Nat × Driver)) (i : Nat) : Option Nat :=
  r.bind fun x => (x.2.heap mom).bind fun m => m.ChannelMap i

/-- The subkey from which the scheme loop reads a (port name, channel
mask) pair: the key opens and both values are present. -/
def pairKey (p : List Nat × Nat) : SchemeKey :=
  { opens := true, port := some p.1, Channels := some p.2 }

/-- The binding the scheme fill is specified to give channel i: the port
resolved from the last pair of the list whose name resolves and whose mask
has bit i set; unbound when there is no such pair. -/
def lastWins (ports : List MIDIOUTPORT) (pairs : List (List Nat × Nat)) (i : Nat) :
    Option Nat :=
  match pairs.reverse.find? fun p => (MIDIMAP_FindPort ports p.1).isSome && p.2.testBit i with
  | some p => MIDIMAP_FindPort ports p.1
  | none => none

/-- A registry whose only scheme, named by the empty string, holds the
given pairs, and which selects that scheme. -/
def schemeRegistry (pairs : List (List Nat × Nat)) : Registry :=
  { MIDIMap := some { szPname := none, UseScheme := some 1, CurrentScheme := some [],
                      CurrentInstrument := none },
    Schemes := some fun name => if name = [] then some (pairs.map pairKey) else none }

/-- Two ports named A and B, neither loaded. -/
def portsAB : List MIDIOUTPORT :=
  [{ name := [65], loaded := 0, hMidi := 0, uDevID := 0, lpbPatch := none, aChn := fun i => i },
   { name := [66], loaded := 0, hMidi := 0, uDevID := 1, lpbPatch := none, aChn := fun i => i }]

/-- The state MIDIMAP_drvOpen leaves: the one port, not loaded, and no session. -/
def freshDriver : Driver := driverWith [winlatorPort 0 none] none 0

/-- A session opened at address 1000 with the default fill on freshDriver. -/
def openedAt1000 : Option (Nat × Driver) :=
  modOpen freshDriver (defaultRegistry none) 1000 (sessionAt 0 onlyChannel1 0)
    (some { hMidi := 0, dwCallback := 0, dwInstance := 0 }) 0

/-- The session of openedAt1000 closed again, where the allocator leaves the
freed block readable with the bytes it held. -/
def closedIntact : Option (Nat × Driver) :=
  andThen openedAt1000 fun d => modClose d 1000 (d.heap 1000)

/-- The session of openedAt1000 closed again, where the freed block is no
longer readable. -/
def closedUnmapped : Option (Nat × Driver) :=
  andThen openedAt1000 fun d => modClose d 1000 none

/-- A patch table that sends program 5 to program 9 and keeps the others. -/
def patch5to9 : Nat → Nat := fun p => if p = 5 then 9 else p

/-- A state built by hand whose session binds every channel to a loaded
port with the patch table patch5to9; the driver itself never gives a port
a patch table. -/
def patchDriver : Driver :=
  driverWith [winlatorPort 1 (some patch5to9)] (some (sessionAt 1000 allToPort0 0)) 0

/-- A state whose block at address 1000 is readable but holds 999 in self:
the handle 1000 fails the liveness check. -/
def foreignDriver : Driver :=
  driverWith [winlatorPort 1 none] (some (sessionAt 999 allToPort0 0x90)) 2

/-- A state like plainDriver whose buffers have the given flags and whose
send buffer holds the eight bytes 1..8 after a zero code byte. -/
def bufferDriver (dwFlags : Nat) : Driver :=
  { driverWith [winlatorPort 1 none] (some (sessionAt 1000 allToPort0 0x90)) dwFlags with
    send_buffer := fun i => i }

/-- Bytes 1..8 of send_buffer, the part of a datagram after the request code. -/
def payloadOf (d : Driver) : List Nat := (List.range 8).map fun i => d.send_buffer (i + 1)

/-- The state in which openedAt1000 ends. -/
def openedDriver : Driver :=
  match openedAt1000 with
  | some r => r.2
  | none => freshDriver

/-- A state whose session binds every channel to the one port, which is
not loaded, with running status 0x91. -/
def unloadedDriver : Driver :=
  driverWith [winlatorPort 0 none] (some (sessionAt 1000 allToPort0 0x91)) 0

/-- The name #4294967296: the sign # followed by the decimal digits of 2^32. -/
def nameHash2pow32 : List Nat := [35, 52, 50, 57, 52, 57, 54, 55, 50, 57, 54]

/-- The number a string of decimal digit code units denotes, continuing
from the value acc of the digits before it. -/
def decimalValue (acc : Nat) : List Nat → Nat
  | [] => acc
  | c :: rest => decimalValue (acc * 10 + (c - 48)) rest

/-- A state with the ports A and B, neither loaded, and no session. -/
def driverAB : Driver := driverWith portsAB none 0

/-- A call that reaches the driver through MIDIMAP_modMessage on an open
session: the cases MODM_DATA, MODM_LONGDATA, MODM_PREPARE, MODM_UNPREPARE
and MODM_RESET, each with its arguments dwUser, dwParam1, dwParam2. -/
inductive Call where
  | data (dwUser dwParam1 : Nat)
  | longData (dwUser dwParam1 dwParam2 : Nat)
  | prepare (dwUser dwParam1 dwParam2 : Nat)
  | unprepare (dwUser dwParam1 dwParam2 : Nat)
  | reset (dwUser : Nat)

/-- The dispatch of MIDIMAP_modMessage for these five messages. -/
def modMessage (d : Driver) : Call → Option (Nat × Driver)
  | Call.data dwUser dwParam1 => modData d dwUser dwParam1
  | Call.longData dwUser dwParam1 dwParam2 => modLongData d dwUser dwParam1 dwParam2
  | Call.prepare dwUser dwParam1 dwParam2 => some (modPrepare d dwUser dwParam1 dwParam2)
  | Call.unprepare dwUser dwParam1 dwParam2 => some (modUnprepare d dwUser dwParam1 dwParam2)
  | Call.reset dwUser => some (modReset d dwUser)

/-- A sequence of calls, one after the other; none when one of them faults. -/
def runCalls (d : Driver) : List Call → Option Driver
  | [] => some d
  | c :: cs =>
    match modMessage d c with
    | none => none
    | some r => runCalls r.2 cs

/-- The running status is none (0) or a voice status (0x80..0xEF). -/
def runningStatusOk (runningStatus : Nat) : Prop :=
  runningStatus = 0 ∨ (0x80 ≤ runningStatus ∧ runningStatus ≤ 0xEF)

/-- How one call may change the memory that holds sessions: not at all, or
by storing into one readable block a running status that is 0, the one the
block held, or a voice status. -/
def HeapStep (d d1 : Driver) : Prop :=
  d1.heap = d.heap ∨
    ∃ (h : Nat) (m : MIDIMAPDATA) (rs : Nat),
      d.heap h = some m ∧
      d1.heap = Function.update d.heap h (some { m with runningStatus := rs }) ∧
      (rs = 0 ∨ rs = m.runningStatus ∨ (0x80 ≤ rs ∧ rs ≤ 0xEF))

/-- The session at mom is live and its running status is 0 or a voice status. -/
def SessionOk (mom : Nat) (d : Driver) : Prop :=
  ∃ m, d.heap mom = some m ∧ m.self = mom ∧ runningStatusOk m.runningStatus

/-- A sequence of calls on the session at 1000: a note-on, a bare data
pair, a real-time byte, prepare and long data on buffer 7, a reset, a
stray data pair, a call on a foreign handle, and a program change. -/
def exampleCalls : List Call :=
  [Call.data 1000 0x403C90, Call.data 1000 0x413E, Call.data 1000 0xF8,
   Call.prepare 1000 7 48, Call.longData 1000 7 0, Call.reset 1000,
   Call.data 1000 0x413E, Call.data 1001 0x403C90, Call.data 1000 0x05C5]

/-- The state exampleCalls reaches from openedDriver. -/
def afterCalls : Driver :=
  match runCalls openedDriver exampleCalls with
  | some d => d
  | none => openedDriver

/-- The value of status with which modData reaches its switch, when it
does: none when the handle is rejected, when a data byte arrives with no
running status, or when the channel of the status is unbound. -/
def modData_switchStatus (d : Driver) (mom : Nat) (dwParam : Nat) : Option Nat :=
  let status := LOBYTE (LOWORD dwParam)
  if MIDIMAP_IsBadData d mom then none
  else
    match d.heap mom with
    | none => none
    | some m =>
      let effective : Option Nat :=
        if status < 0x80 then
          if m.runningStatus ≠ 0 then some m.runningStatus else none
        else some status
      match effective with
      | none => none
      | some status =>
        match m.ChannelMap (status &&& 0x0F) with
        | none => none
        | some _ => some status

/-- The status selects one of the case labels of the switch of modData,
0x80 to 0xE0 or 0xF0, and not the default branch. -/
def selectsCase (status : Nat) : Prop :=
  status &&& 0xF0 = 0x80 ∨ status &&& 0xF0 = 0x90 ∨ status &&& 0xF0 = 0xA0 ∨
  status &&& 0xF0 = 0xB0 ∨ status &&& 0xF0 = 0xC0 ∨ status &&& 0xF0 = 0xD0 ∨
  status &&& 0xF0 = 0xE0 ∨ status &&& 0xF0 = 0xF0

/-- The name #0x: an index form followed by a character that is not a digit. -/
def nameHash0x : List Nat := [35, 48, 120]

/-- The session at mom is live, its running status is 0 or a voice status,
and each of its 16 channels is bound to a port of the table. -/
def SessionWired (mom : Nat) (d : Driver) : Prop :=
  ∃ m, d.heap mom = some m ∧ m.self = mom ∧ runningStatusOk m.runningStatus ∧
    ∀ chn, chn < 16 → ∃ dev, m.ChannelMap chn = some dev ∧ dev < d.midiOutPorts.length

/-- The function MIDIMAP_drvOpen: the one port is created and send_buffer is
allocated; fresh is what the block HeapAlloc returns for it holds (the
call does not ask for zeroed memory).  The socket is not modelled. -/
def MIDIMAP_drvOpen (d : Driver) (fresh : Nat → Nat) : Nat × Driver :=
  match d.midiOutPorts with
  | _ :: _ => (0, d)
  | [] => (1, { d with midiOutPorts := [winlatorPort 0 none], send_buffer := fresh })

/-- An operation on the driver that reaches it through MIDIMAP_modMessage:
one of the five messages of Call, MODM_OPEN with the registry it finds,
the block HeapAlloc gives it and its arguments, or MODM_CLOSE with what
the allocator leaves of the freed block. -/
inductive Event where
  | message (call : Call)
  | opened (reg : Registry) (mom : Nat) (m0 : MIDIMAPDATA) (lpDesc : Option MIDIOPENDESC)
      (dwFlags : Nat)
  | closed (mom : Nat) (freed : Option MIDIMAPDATA)

/-- The dispatch of MIDIMAP_modMessage for these operations. -/
def driverEvent (d : Driver) : Event → Option (Nat × Driver)
  | Event.message call => modMessage d call
  | Event.opened reg mom m0 lpDesc dwFlags => modOpen d reg mom m0 lpDesc dwFlags
  | Event.closed mom freed => modClose d mom freed

/-- A sequence of operations, one after the other; none when one faults. -/
def runEvents (d : Driver) : List Event → Option Driver
  | [] => some d
  | e :: es =>
    match driverEvent d e with
    | none => none
    | some r => runEvents r.2 es

/-- The payload of the most recent short-message datagram among frames
(oldest first), or p0, the contents the buffer started with, when frames
holds no short-message datagram. -/
def recentShortPayload (p0 : List Nat) : List (List Nat) → List Nat
  | [] => p0
  | f :: frames =>
    if f.head? = some REQUEST_CODE_MIDI_SHORT then recentShortPayload f.tail frames
    else recentShortPayload p0 frames

/-- What one operation may do to the datagrams and to bytes 1..8 of
send_buffer: nothing; one datagram with a code other than 1 that carries
those bytes and leaves them; or one short-message datagram whose payload
those bytes then hold. -/
def FrameStep (d d1 : Driver) : Prop :=
  (d1.sent = d.sent ∧ payloadOf d1 = payloadOf d) ∨
  (∃ code, code ≠ REQUEST_CODE_MIDI_SHORT ∧ d1.sent = d.sent ++ [code :: payloadOf d] ∧
    payloadOf d1 = payloadOf d) ∨
  (∃ v, d1.sent = d.sent ++ [REQUEST_CODE_MIDI_SHORT :: le64 v] ∧ payloadOf d1 = le64 v)

/-- Each datagram of frames with a code other than 1 carries the payload of
the most recent short-message datagram before it, or p0 when there is none. -/
def CarriesRecentPayload (p0 : List Nat) (frames : List (List Nat)) : Prop :=
  ∀ (pre : List (List Nat)) (f : List Nat) (post : List (List Nat)),
    frames = pre ++ f :: post → f.head? ≠ some REQUEST_CODE_MIDI_SHORT →
      f.tail = recentShortPayload p0 pre

/-- A run from the state MIDIMAP_drvOpen leaves when the fresh send_buffer
holds the byte 0xAB everywhere: open, prepare, a note-on, reset, a
real-time byte, unprepare, close. -/
def exampleEvents : List Event :=
  [Event.opened (defaultRegistry none) 1000 (sessionAt 0 onlyChannel1 0)
     (some { hMidi := 0, dwCallback := 0, dwInstance := 0 }) 0,
   Event.message (Call.prepare 1000 7 44),
   Event.message (Call.data 1000 0x403C90),
   Event.message (Call.reset 1000),
   Event.message (Call.data 1000 0xF8),
   Event.message (Call.unprepare 1000 7 44),
   Event.closed 1000 none]

/-- The state MIDIMAP_drvOpen leaves from an empty driver when the fresh
send_buffer holds the byte 0xAB everywhere. -/
def attachedDriver : Driver :=
  (MIDIMAP_drvOpen (driverWith [] none 0) fun _ => 0xAB).2

/-- The state exampleEvents reaches from attachedDriver. -/
def afterEvents : Driver :=
  match runEvents attachedDriver exampleEvents with
  | some d => d
  | none => attachedDriver

/-- No port of the table has a patch table. -/
def NoPatchTable (d : Driver) : Prop := ∀ p ∈ d.midiOutPorts, p.lpbPatch = none

end Midimap

/-! ## Arithmetic of the masks -/

namespace Midimap

theorem and_0x0F (x : Nat) : x &&& 0x0F = x % 16 :=
  Nat.and_pow_two_sub_one_eq_mod x 4

set_option maxRecDepth 100000 in
theorem and_0xF0_byte : ∀ x < 256, x &&& 0xF0 = 16 * (x / 16) := by
  decide

theorem testBit_ge_of_lt {v n i : Nat} (hv : v < 2 ^ n) (hi : n ≤ i) : v.testBit i = false :=
  Nat.testBit_lt_two_pow (lt_of_lt_of_le hv (Nat.pow_le_pow_right (by decide) hi))

theorem and_NOT_0x0F {v : Nat} (hv : v < 2 ^ 64) : v &&& NOT_0x0F = 16 * (v / 16) := by
  apply Nat.eq_of_testBit_eq
  intro i
  have h1 : NOT_0x0F = 2 ^ 64 - (15 + 1) := by decide
  have h2 : (15 : Nat) = 2 ^ 4 - 1 := by decide
  have h3 : (16 : Nat) = 2 ^ 4 := by decide
  rw [Nat.testBit_and, h1, Nat.testBit_two_pow_sub_succ (by decide), h2, Nat.testBit_two_pow_sub_one,
    h3, Nat.testBit_mul_pow_two, ← Nat.shiftRight_eq_div_pow, Nat.testBit_shiftRight]
  by_cases h4 : i < 4
  · simp [h4, Nat.not_le.mpr h4]
  · have h5 : 4 + (i - 4) = i := by omega
    by_cases h64 : i < 64
    · simp [h4, h64, h5, Nat.le_of_not_lt h4]
    · simp [h4, h64, h5, testBit_ge_of_lt hv (Nat.le_of_not_lt h64)]

theorem rewrite_channel {v r : Nat} (hv : v < 2 ^ 64) (hr : r < 16) :
    (v &&& NOT_0x0F) ||| r = 16 * (v / 16) + r := by
  rw [and_NOT_0x0F hv]
  exact (@Nat.mul_add_lt_is_or 4 r hr (v / 16)).symm

theorem pack2 {a b : Nat} (ha : a < 256) : a ||| b <<< 8 = a + 256 * b := by
  rw [Nat.shiftLeft_eq, Nat.or_comm, Nat.mul_comm]
  rw [← @Nat.mul_add_lt_is_or 8 a ha b]
  have : (2 : Nat) ^ 8 = 256 := by decide
  omega

/-! ## The router on a live session -/

theorem isBadData_valid {d : Driver} {mom : Nat} {m : MIDIMAPDATA}
    (hm : d.heap mom = some m) (hs : m.self = mom) : MIDIMAP_IsBadData d mom = false := by
  simp [MIDIMAP_IsBadData, hm, hs]

theorem modData_valid {d : Driver} {mom : Nat} {m : MIDIMAPDATA}
    (hm : d.heap mom = some m) (hs : m.self = mom) (v : Nat) :
    modData d mom v =
      if v % 256 < 0x80 then
        if m.runningStatus ≠ 0 then
          modData_dispatch d mom m m.runningStatus ((v % 65536) <<< 8 ||| m.runningStatus)
        else some (MMSYSERR_NOERROR, d)
      else modData_dispatch d mom m (v % 256) v := by
  have h256 : v % 65536 % 256 = v % 256 := by omega
  simp [modData, isBadData_valid hm hs, hm, LOBYTE, LOWORD, h256]

set_option maxRecDepth 100000 in
theorem voice_select : ∀ s < 256, 0x80 ≤ s → s ≤ 0xEF →
    (s &&& 0xF0 = 0x80 ∨ s &&& 0xF0 = 0x90 ∨ s &&& 0xF0 = 0xA0 ∨ s &&& 0xF0 = 0xB0 ∨
      s &&& 0xF0 = 0xC0 ∨ s &&& 0xF0 = 0xD0 ∨ s &&& 0xF0 = 0xE0) := by
  decide

theorem dispatch_unbound {d : Driver} {mom : Nat} {m : MIDIMAPDATA} {s v : Nat}
    (hb : m.ChannelMap (s % 16) = none) :
    modData_dispatch d mom m s v = some (MMSYSERR_NOERROR, d) := by
  simp [modData_dispatch, and_0x0F, hb]

theorem dispatch_voice {d : Driver} {mom : Nat} {m : MIDIMAPDATA} {s v dev : Nat}
    {port : MIDIOUTPORT} (h1 : 0x80 ≤ s) (h2 : s ≤ 0xEF)
    (hb : m.ChannelMap (s % 16) = some dev) (hp : d.midiOutPorts[dev]? = some port) :
    modData_dispatch d mom m s v =
      some (MMSYSERR_NOERROR,
        storeSession
          (if port.loaded > 0 then request_midi_short d (modData_rewrite port (s % 16) v) else d)
          mom { m with runningStatus := s }) := by
  have hsel := voice_select s (by omega) h1 h2
  simp only [modData_dispatch, and_0x0F, hb, hp, if_pos hsel]

theorem dispatch_system {d : Driver} {mom : Nat} {m : MIDIMAPDATA} {s v dev : Nat}
    (h1 : 0xF0 ≤ s) (h2 : s < 256) (hb : m.ChannelMap (s % 16) = some dev) :
    modData_dispatch d mom m s v =
      if s ≤ 0xF7 then
        some (MMSYSERR_NOERROR,
          storeSession (request_midi_short d v) mom { m with runningStatus := 0 })
      else some (MMSYSERR_NOERROR, request_midi_short d v) := by
  have hsel : s &&& 0xF0 = 0xF0 := by
    rw [and_0xF0_byte s h2]; omega
  simp [modData_dispatch, and_0x0F, hb, hsel]

theorem request_midi_short_sent (d : Driver) (v : Nat) :
    (request_midi_short d v).sent = d.sent ++ [REQUEST_CODE_MIDI_SHORT :: le64 v] := by
  simp [request_midi_short, request_midi_data, setCode, BUFFER_SIZE, le64, List.range,
    List.range.loop, Function.update]

theorem request_midi_short_heap (d : Driver) (v : Nat) :
    (request_midi_short d v).heap = d.heap := rfl

theorem request_midi_short_ports (d : Driver) (v : Nat) :
    (request_midi_short d v).midiOutPorts = d.midiOutPorts := rfl


/-! ## Short messages -/

/-- C1. On a live session, a message whose status byte is at least 0x80 and
whose channel (the low four bits of the status) is unbound returns
MMSYSERR_NOERROR and leaves the whole driver state as it was: no datagram
is sent, and the running status and the channel map are unchanged. -/
theorem modData_unbound_channel (d : Driver) (mom : Nat) (m : MIDIMAPDATA) (v : Nat)
    (hm : d.heap mom = some m) (hs : m.self = mom)
    (hstatus : 0x80 ≤ v % 256) (hunbound : m.ChannelMap (v % 256 % 16) = none) :
    modData d mom v = some (MMSYSERR_NOERROR, d) := by
  rw [modData_valid hm hs, if_neg (by omega)]
  exact dispatch_unbound hunbound

theorem modData_unbound_channel_witness :
    modData mutedDriver 1000 0x403C90 = some (MMSYSERR_NOERROR, mutedDriver) :=
  modData_unbound_channel mutedDriver 1000 (sessionAt 1000 onlyChannel1 0x91) 0x403C90
    rfl rfl (by decide) (by decide)

/-- On a live session whose channel map binds the entry selected by the
low four bits of a status byte in 0xF0..0xF7, modData returns
MMSYSERR_NOERROR and the running status afterwards is 0. -/
theorem system_common_on_bound_entry (d : Driver) (mom : Nat) (m : MIDIMAPDATA)
    (v dev : Nat) (hm : d.heap mom = some m) (hs : m.self = mom)
    (h1 : 0xF0 ≤ v % 256) (h2 : v % 256 ≤ 0xF7)
    (hbound : m.ChannelMap (v % 256 % 16) = some dev) :
    codeOf (modData d mom v) = some MMSYSERR_NOERROR ∧
    runningStatusOf mom (modData d mom v) = some 0 := by
  rw [modData_valid hm hs, if_neg (by omega), dispatch_system h1 (by omega) hbound, if_pos h2]
  simp [codeOf, runningStatusOf, storeSession]

/-- Without a patch substitution the rewriting replaces the low four bits
of the value by the remap entry and keeps every other bit. -/
theorem modData_rewrite_channel_only {port : MIDIOUTPORT} {chn v : Nat} (hv : v < 2 ^ 64)
    (hr : port.aChn chn ≤ 15) (hnp : port.lpbPatch = none ∨ v % 256 / 16 ≠ 0xC) :
    modData_rewrite port chn v = 16 * (v / 16) + port.aChn chn := by
  have hmod : port.aChn chn % 2 ^ 32 = port.aChn chn :=
    Nat.mod_eq_of_lt (lt_of_le_of_lt hr (by decide))
  have hp1 : (v &&& NOT_0x0F) ||| (port.aChn chn % 2 ^ 32) = 16 * (v / 16) + port.aChn chn := by
    rw [hmod]; exact rewrite_channel hv (by omega)
  unfold modData_rewrite
  simp only [hp1, LOBYTE, LOWORD]
  rcases hnp with hnone | hnc
  · rw [hnone]; split <;> rfl
  · have hb : (16 * (v / 16) + port.aChn chn) % 65536 % 256 < 256 := Nat.mod_lt _ (by decide)
    rw [and_0xF0_byte _ hb, if_neg]
    omega

/-- C5. On a live session, for a voice status s = v mod 256 in 0x80..0xEF
whose channel is bound to a loaded port with remap entry at most 15, where
the port has no patch table or s is not a program change, modData returns
MMSYSERR_NOERROR and sends exactly one datagram: request code 1 followed by
the eight bytes of v with its low four bits replaced by the remap entry
(16 * (v / 16) + remap), every other bit of v kept. -/
theorem modData_channel_rewrite (d : Driver) (mom : Nat) (m : MIDIMAPDATA) (v dev : Nat)
    (port : MIDIOUTPORT) (hm : d.heap mom = some m) (hs : m.self = mom) (hv : v < 2 ^ 64)
    (hs1 : 0x80 ≤ v % 256) (hs2 : v % 256 ≤ 0xEF)
    (hbound : m.ChannelMap (v % 256 % 16) = some dev)
    (hport : d.midiOutPorts[dev]? = some port) (hloaded : port.loaded > 0)
    (hremap : port.aChn (v % 256 % 16) ≤ 15)
    (hnp : port.lpbPatch = none ∨ v % 256 / 16 ≠ 0xC) :
    codeOf (modData d mom v) = some MMSYSERR_NOERROR ∧
    framesOf (modData d mom v) =
      some (d.sent ++
        [REQUEST_CODE_MIDI_SHORT :: le64 (16 * (v / 16) + port.aChn (v % 256 % 16))]) := by
  rw [modData_valid hm hs, if_neg (by omega), dispatch_voice hs1 hs2 hbound hport,
    if_pos hloaded, modData_rewrite_channel_only hv hremap hnp]
  simp [codeOf, framesOf, storeSession, request_midi_short_sent]

theorem modData_channel_rewrite_witness :
    codeOf (modData plainDriver 1000 0x05C3) = some MMSYSERR_NOERROR ∧
    framesOf (modData plainDriver 1000 0x05C3) =
      some (plainDriver.sent ++
        [REQUEST_CODE_MIDI_SHORT :: le64 (16 * (0x05C3 / 16) + (winlatorPort 1 none).aChn (0x05C3 % 256 % 16))]) :=
  modData_channel_rewrite plainDriver 1000 (sessionAt 1000 allToPort0 0) 0x05C3 0
    (winlatorPort 1 none) rfl rfl (by decide) (by decide) (by decide) rfl rfl (by decide)
    (by decide) (Or.inl rfl)

/-- The patch path of modData on a port built by hand.  No port of the
driver has a patch table (MIDIMAP_drvOpen stores NULL in lpbPatch and
nothing else writes it), so this path does not run in the driver.  On a
port given the table that sends program 5 to 9, program change 5 on
channel 0 (value 0x05C0) would go out as the value 0xC9: the table entry
is or-ed into the low byte and the program-number byte (bits 8..15) is 0. -/
theorem program_change_patch_misplaced :
    framesOf (modData patchDriver 1000 (0xC0 ||| 0 ||| 5 <<< 8))
      = some [[1, 0xC9, 0, 0, 0, 0, 0, 0, 0]] ∧
    modData_rewrite (winlatorPort 1 (some patch5to9)) 0 0x05C0 = 0xC9 := by
  decide


theorem and_NOT_0x0000FF00 {x : Nat} (hx : x < 2 ^ 16) : x &&& NOT_0x0000FF00 = x % 256 := by
  apply Nat.eq_of_testBit_eq
  intro i
  have h1 : NOT_0x0000FF00 = 2 ^ 64 - (2 ^ 8 * (2 ^ 8 - 1) + 1) := by decide
  have h3 : (256 : Nat) = 2 ^ 8 := by decide
  rw [Nat.testBit_and, h1, Nat.testBit_two_pow_sub_succ (by decide), Nat.testBit_mul_pow_two,
    Nat.testBit_two_pow_sub_one, h3, Nat.testBit_mod_two_pow]
  by_cases h8 : i < 8
  · have : i < 64 := by omega
    simp [h8, this, Nat.not_le.mpr h8]
  · by_cases h16 : i < 16
    · have : i - 8 < 8 := by omega
      simp [h8, Nat.le_of_not_lt h8, this]
    · simp [h8, testBit_ge_of_lt hx (Nat.le_of_not_lt h16)]

/-- The patch substitution as the code is written, on a port built by
hand with a patch table T: for a program change p on channel c the
rewritten value is the status byte or-ed with the table entry T p, below
256, so that its program-number byte is 0 whatever the table holds. -/
theorem modData_rewrite_program_change {port : MIDIOUTPORT} {c p : Nat} {T : Nat → Nat}
    (hc : c < 16) (hp : p < 0x80) (hr : port.aChn c ≤ 15) (hT : port.lpbPatch = some T) :
    modData_rewrite port c (0xC0 ||| c ||| p <<< 8) = (0xC0 + port.aChn c) ||| (T p % 256) ∧
    byteOf (modData_rewrite port c (0xC0 ||| c ||| p <<< 8)) 1 = 0 := by
  have hv : 0xC0 ||| c ||| p <<< 8 = 0xC0 + c + 256 * p := by
    have e0 : 0xC0 ||| c = 0xC0 + c := (@Nat.mul_add_lt_is_or 4 c hc 12).symm
    rw [e0, pack2 (by omega)]
  have hmod : port.aChn c % 2 ^ 32 = port.aChn c :=
    Nat.mod_eq_of_lt (lt_of_le_of_lt hr (by decide))
  have hp1 : ((0xC0 + c + 256 * p) &&& NOT_0x0F) ||| (port.aChn c % 2 ^ 32)
      = 0xC0 + port.aChn c + 256 * p := by
    rw [hmod, rewrite_channel (lt_of_lt_of_le (by omega : 0xC0 + c + 256 * p < 65536) (by decide))
      (by omega)]
    omega
  have hlow : (0xC0 + port.aChn c + 256 * p) % 65536 % 256 &&& 0xF0 = 0xC0 := by
    rw [and_0xF0_byte _ (Nat.mod_lt _ (by decide))]; omega
  have hpatch : (((0xC0 + port.aChn c + 256 * p) % 65536) >>> 8) % 256 = p := by
    rw [Nat.shiftRight_eq_div_pow]
    have : (2 : Nat) ^ 8 = 256 := by decide
    omega
  have hmask : (0xC0 + port.aChn c + 256 * p) &&& NOT_0x0000FF00 = 0xC0 + port.aChn c := by
    rw [and_NOT_0x0000FF00 (lt_of_lt_of_le (by omega : _ < 65536) (by decide))]; omega
  have hval : modData_rewrite port c (0xC0 ||| c ||| p <<< 8)
      = (0xC0 + port.aChn c) ||| (T p % 256) := by
    unfold modData_rewrite
    simp only [hv, hp1, LOBYTE, LOWORD, HIBYTE, hlow, hT, hpatch, hmask, if_true]
  refine ⟨hval, ?_⟩
  have hlt : (0xC0 + port.aChn c) ||| (T p % 256) < 2 ^ 8 :=
    Nat.or_lt_two_pow (by omega) (Nat.mod_lt _ (by decide))
  rw [hval, byteOf, Nat.shiftRight_eq_div_pow]
  have : (2 : Nat) ^ (8 * 1) = 256 := by decide
  have : (2 : Nat) ^ 8 = 256 := by decide
  omega


/-! ## Buffer flags -/

theorem and_PREPARED_ne_zero (f : Nat) : f &&& MHDR_PREPARED ≠ 0 ↔ f.testBit 1 = true := by
  have h := Nat.and_two_pow f 1
  simp only [MHDR_PREPARED]
  rw [show (2 : Nat) = 2 ^ 1 from rfl, h]
  cases f.testBit 1 <;> simp

theorem and_INQUEUE_eq_zero (f : Nat) : f &&& MHDR_INQUEUE = 0 ↔ f.testBit 2 = false := by
  have h := Nat.and_two_pow f 2
  simp only [MHDR_INQUEUE]
  rw [show (4 : Nat) = 2 ^ 2 from rfl, h]
  cases f.testBit 2 <;> simp

theorem prepared_after_set (f : Nat) :
    ((f ||| MHDR_PREPARED) &&& NOT_DONE_INQUEUE) &&& MHDR_PREPARED ≠ 0 := by
  rw [and_PREPARED_ne_zero, Nat.testBit_and, Nat.testBit_or]
  have h1 : MHDR_PREPARED.testBit 1 = true := by decide
  have h2 : NOT_DONE_INQUEUE.testBit 1 = true := by decide
  simp [h1, h2]

theorem inqueue_after_set (f : Nat) :
    ((f ||| MHDR_PREPARED) &&& NOT_DONE_INQUEUE) &&& MHDR_INQUEUE = 0 := by
  rw [and_INQUEUE_eq_zero, Nat.testBit_and]
  have h2 : NOT_DONE_INQUEUE.testBit 2 = false := by decide
  simp [h2]

/-- The effect of modPrepare on a live session and a valid buffer. -/
theorem modPrepare_valid {d : Driver} {mom : Nat} {m : MIDIMAPDATA} {hdr sz : Nat}
    (hm : d.heap mom = some m) (hs : m.self = mom) (hsz : offsetof_MIDIHDR_dwOffset ≤ sz)
    (hhdr : hdr ≠ 0) (hdata : (d.hdrs hdr).lpData ≠ 0) :
    (modPrepare d mom hdr sz).1 = MMSYSERR_NOERROR ∧
    (modPrepare d mom hdr sz).2.heap = d.heap ∧
    ((modPrepare d mom hdr sz).2.hdrs hdr).lpData = (d.hdrs hdr).lpData ∧
    ((modPrepare d mom hdr sz).2.hdrs hdr).dwFlags =
      (if (d.hdrs hdr).dwFlags &&& MHDR_PREPARED ≠ 0 then (d.hdrs hdr).dwFlags
       else ((d.hdrs hdr).dwFlags ||| MHDR_PREPARED) &&& NOT_DONE_INQUEUE) ∧
    (modPrepare d mom hdr sz).2.sent =
      d.sent ++ [(List.range BUFFER_SIZE).map
        (Function.update d.send_buffer 0 REQUEST_CODE_MIDI_PREPARE)] := by
  have hguard : ¬ (sz < offsetof_MIDIHDR_dwOffset ∨ hdr = 0 ∨ (d.hdrs hdr).lpData = 0) := by
    rintro (h | h | h)
    · omega
    · exact hhdr h
    · exact hdata h
  unfold modPrepare
  rw [isBadData_valid hm hs]
  simp only [Bool.false_eq_true, if_false, if_neg hguard]
  by_cases hp : (d.hdrs hdr).dwFlags &&& MHDR_PREPARED ≠ 0
  · have hp1 : ((request_midi_prepare d).hdrs hdr).dwFlags &&& MHDR_PREPARED ≠ 0 := hp
    rw [if_pos hp1, if_pos hp]
    exact ⟨rfl, rfl, rfl, rfl, rfl⟩
  · have hp1 : ¬ ((request_midi_prepare d).hdrs hdr).dwFlags &&& MHDR_PREPARED ≠ 0 := hp
    rw [if_neg hp1, if_neg hp]
    refine ⟨rfl, rfl, ?_, ?_, rfl⟩
    · simp [storeFlags, request_midi_prepare, request_midi_data, setCode]
    · simp [storeFlags, request_midi_prepare, request_midi_data, setCode]

/-- C6. On a live session and a valid buffer (non-NULL, lpData non-NULL,
dwSize at least offsetof(MIDIHDR, dwOffset)), two calls of modPrepare in a
row both return MMSYSERR_NOERROR; MHDR_PREPARED is set after the first;
the second leaves dwFlags exactly as the first left them; and when
MHDR_INQUEUE was clear before, it is clear after each call. -/
theorem modPrepare_idempotent (d : Driver) (mom : Nat) (m : MIDIMAPDATA) (hdr sz : Nat)
    (hm : d.heap mom = some m) (hs : m.self = mom) (hsz : offsetof_MIDIHDR_dwOffset ≤ sz)
    (hhdr : hdr ≠ 0) (hdata : (d.hdrs hdr).lpData ≠ 0) :
    (modPrepare d mom hdr sz).1 = MMSYSERR_NOERROR ∧
    (modPrepare (modPrepare d mom hdr sz).2 mom hdr sz).1 = MMSYSERR_NOERROR ∧
    ((modPrepare d mom hdr sz).2.hdrs hdr).dwFlags &&& MHDR_PREPARED ≠ 0 ∧
    ((modPrepare (modPrepare d mom hdr sz).2 mom hdr sz).2.hdrs hdr).dwFlags =
      ((modPrepare d mom hdr sz).2.hdrs hdr).dwFlags ∧
    ((d.hdrs hdr).dwFlags &&& MHDR_INQUEUE = 0 →
      ((modPrepare d mom hdr sz).2.hdrs hdr).dwFlags &&& MHDR_INQUEUE = 0 ∧
      ((modPrepare (modPrepare d mom hdr sz).2 mom hdr sz).2.hdrs hdr).dwFlags
        &&& MHDR_INQUEUE = 0) := by
  obtain ⟨hc1, hheap1, hdata1, hflags1, _⟩ := modPrepare_valid hm hs hsz hhdr hdata
  have hm1 : (modPrepare d mom hdr sz).2.heap mom = some m := by rw [hheap1]; exact hm
  have hdata1n : ((modPrepare d mom hdr sz).2.hdrs hdr).lpData ≠ 0 := by rw [hdata1]; exact hdata
  obtain ⟨hc2, _, _, hflags2, _⟩ := modPrepare_valid hm1 hs hsz hhdr hdata1n
  have hprep : ((modPrepare d mom hdr sz).2.hdrs hdr).dwFlags &&& MHDR_PREPARED ≠ 0 := by
    rw [hflags1]
    by_cases hp : (d.hdrs hdr).dwFlags &&& MHDR_PREPARED ≠ 0
    · rw [if_pos hp]; exact hp
    · rw [if_neg hp]; exact prepared_after_set _
  have hsame : ((modPrepare (modPrepare d mom hdr sz).2 mom hdr sz).2.hdrs hdr).dwFlags =
      ((modPrepare d mom hdr sz).2.hdrs hdr).dwFlags := by
    rw [hflags2, if_pos hprep]
  refine ⟨hc1, hc2, hprep, hsame, ?_⟩
  intro hq
  have hq1 : ((modPrepare d mom hdr sz).2.hdrs hdr).dwFlags &&& MHDR_INQUEUE = 0 := by
    rw [hflags1]
    by_cases hp : (d.hdrs hdr).dwFlags &&& MHDR_PREPARED ≠ 0
    · rw [if_pos hp]; exact hq
    · rw [if_neg hp]; exact inqueue_after_set _
  exact ⟨hq1, by rw [hsame]; exact hq1⟩

theorem modPrepare_idempotent_witness :
    (modPrepare plainDriver 1000 7 44).1 = MMSYSERR_NOERROR ∧
    (modPrepare (modPrepare plainDriver 1000 7 44).2 1000 7 44).1 = MMSYSERR_NOERROR ∧
    ((modPrepare plainDriver 1000 7 44).2.hdrs 7).dwFlags &&& MHDR_PREPARED ≠ 0 ∧
    ((modPrepare (modPrepare plainDriver 1000 7 44).2 1000 7 44).2.hdrs 7).dwFlags =
      ((modPrepare plainDriver 1000 7 44).2.hdrs 7).dwFlags ∧
    ((modPrepare plainDriver 1000 7 44).2.hdrs 7).dwFlags &&& MHDR_INQUEUE = 0 ∧
    ((modPrepare (modPrepare plainDriver 1000 7 44).2 1000 7 44).2.hdrs 7).dwFlags
      &&& MHDR_INQUEUE = 0 :=
  have h := modPrepare_idempotent plainDriver 1000 (sessionAt 1000 allToPort0 0) 7 44 rfl rfl
    (by decide) (by decide) (by decide)
  ⟨h.1, h.2.1, h.2.2.1, h.2.2.2.1, h.2.2.2.2 (by decide)⟩

/-- The effect of modUnprepare on a live session and a valid buffer. -/
theorem modUnprepare_valid {d : Driver} {mom : Nat} {m : MIDIMAPDATA} {hdr sz : Nat}
    (hm : d.heap mom = some m) (hs : m.self = mom) (hsz : offsetof_MIDIHDR_dwOffset ≤ sz)
    (hhdr : hdr ≠ 0) (hdata : (d.hdrs hdr).lpData ≠ 0) :
    modUnprepare d mom hdr sz =
      if (d.hdrs hdr).dwFlags &&& MHDR_PREPARED = 0 then
        (MMSYSERR_NOERROR, request_midi_unprepare d)
      else if (d.hdrs hdr).dwFlags &&& MHDR_INQUEUE ≠ 0 then
        (MIDIERR_STILLPLAYING, request_midi_unprepare d)
      else
        (MMSYSERR_NOERROR,
          storeFlags (request_midi_unprepare d) hdr ((d.hdrs hdr).dwFlags &&& NOT_PREPARED)) := by
  have hguard : ¬ (sz < offsetof_MIDIHDR_dwOffset ∨ hdr = 0 ∨ (d.hdrs hdr).lpData = 0) := by
    rintro (h | h | h)
    · omega
    · exact hhdr h
    · exact hdata h
  unfold modUnprepare
  rw [isBadData_valid hm hs]
  simp only [Bool.false_eq_true, if_false, if_neg hguard]
  rfl

/-- C7, as stated, fails.  With MHDR_INQUEUE set and MHDR_PREPARED clear
(dwFlags = 4) modUnprepare returns MMSYSERR_NOERROR, not
MIDIERR_STILLPLAYING, and MHDR_PREPARED is clear afterwards. -/
theorem modUnprepare_inqueue_unprepared :
    (driverWith [winlatorPort 1 none] (some (sessionAt 1000 allToPort0 0)) MHDR_INQUEUE
      |>.hdrs 7).dwFlags &&& MHDR_INQUEUE ≠ 0 ∧
    (modUnprepare
      (driverWith [winlatorPort 1 none] (some (sessionAt 1000 allToPort0 0)) MHDR_INQUEUE)
      1000 7 44).1 = MMSYSERR_NOERROR ∧
    ((modUnprepare
      (driverWith [winlatorPort 1 none] (some (sessionAt 1000 allToPort0 0)) MHDR_INQUEUE)
      1000 7 44).2.hdrs 7).dwFlags &&& MHDR_PREPARED = 0 := by
  decide

/-- C7, amended.  On a live session and a valid buffer whose flags have
both MHDR_PREPARED and MHDR_INQUEUE set, modUnprepare returns
MIDIERR_STILLPLAYING, leaves dwFlags as they were, and so MHDR_PREPARED
is still set afterwards. -/
theorem modUnprepare_still_playing (d : Driver) (mom : Nat) (m : MIDIMAPDATA) (hdr sz : Nat)
    (hm : d.heap mom = some m) (hs : m.self = mom) (hsz : offsetof_MIDIHDR_dwOffset ≤ sz)
    (hhdr : hdr ≠ 0) (hdata : (d.hdrs hdr).lpData ≠ 0)
    (hprep : (d.hdrs hdr).dwFlags &&& MHDR_PREPARED ≠ 0)
    (hinq : (d.hdrs hdr).dwFlags &&& MHDR_INQUEUE ≠ 0) :
    (modUnprepare d mom hdr sz).1 = MIDIERR_STILLPLAYING ∧
    ((modUnprepare d mom hdr sz).2.hdrs hdr).dwFlags = (d.hdrs hdr).dwFlags ∧
    ((modUnprepare d mom hdr sz).2.hdrs hdr).dwFlags &&& MHDR_PREPARED ≠ 0 := by
  rw [modUnprepare_valid hm hs hsz hhdr hdata, if_neg hprep, if_pos hinq]
  exact ⟨rfl, rfl, hprep⟩

theorem modUnprepare_still_playing_witness :
    (modUnprepare
      (driverWith [winlatorPort 1 none] (some (sessionAt 1000 allToPort0 0)) 6)
      1000 7 44).1 = MIDIERR_STILLPLAYING ∧
    ((modUnprepare
      (driverWith [winlatorPort 1 none] (some (sessionAt 1000 allToPort0 0)) 6)
      1000 7 44).2.hdrs 7).dwFlags =
      ((driverWith [winlatorPort 1 none] (some (sessionAt 1000 allToPort0 0)) 6).hdrs 7).dwFlags ∧
    ((modUnprepare
      (driverWith [winlatorPort 1 none] (some (sessionAt 1000 allToPort0 0)) 6)
      1000 7 44).2.hdrs 7).dwFlags &&& MHDR_PREPARED ≠ 0 :=
  modUnprepare_still_playing
    (driverWith [winlatorPort 1 none] (some (sessionAt 1000 allToPort0 0)) 6) 1000
    (sessionAt 1000 allToPort0 0) 7 44 rfl rfl (by decide) (by decide) (by decide)
    (by decide) (by decide)


/-! ## Port lookup and the default fill -/

theorem findPort_exact_range {name : List Nat} :
    ∀ (ports : List MIDIOUTPORT) (k dev : Nat),
      MIDIMAP_FindPort_exact name ports k = some dev → k ≤ dev ∧ dev < k + ports.length := by
  intro ports
  induction ports with
  | nil => intro k dev h; simp [MIDIMAP_FindPort_exact] at h
  | cons p ps ih =>
    intro k dev h
    unfold MIDIMAP_FindPort_exact at h
    split at h
    · cases h
      simp
    · have := ih (k + 1) dev h
      simp only [List.length_cons]
      omega

/-- Whenever MIDIMAP_FindPort reports success the index is inside the table. -/
theorem findPort_lt_length {ports : List MIDIOUTPORT} {name : List Nat} {dev : Nat}
    (h : MIDIMAP_FindPort ports name = some dev) : dev < ports.length := by
  unfold MIDIMAP_FindPort at h
  cases hex : MIDIMAP_FindPort_exact name ports 0 with
  | some dev0 =>
    simp only [hex, Option.some.injEq] at h
    subst h
    have := findPort_exact_range ports 0 dev0 hex
    omega
  | none =>
    simp only [hex] at h
    match name, h with
    | [], h => cases h
    | [_], h => cases h
    | c0 :: c1 :: rest, h =>
      simp only at h
      split at h
      · by_cases hlt : MIDIMAP_FindPort_digits 0 c1 rest < ports.length
        · simp only [if_pos hlt, Option.some.injEq] at h
          subst h
          exact hlt
        · simp only [if_neg hlt] at h
          cases h
      · cases h

theorem defaultPort_lt_length {ports : List MIDIOUTPORT} (port : Option (List Nat))
    (hne : ports ≠ []) : defaultPort ports port < ports.length := by
  have hpos : 0 < ports.length := List.length_pos.mpr hne
  cases port with
  | none => exact hpos
  | some name =>
    show (MIDIMAP_FindPort ports name).getD 0 < ports.length
    cases hf : MIDIMAP_FindPort ports name with
    | none => exact hpos
    | some dev => exact findPort_lt_length hf

theorem loadSettingsDefault_eq (ports : List MIDIOUTPORT) (cm : Nat → Option Nat)
    (port : Option (List Nat)) :
    MIDIMAP_LoadSettingsDefault ports cm port =
      if defaultPort ports port ≥ ports.length then (false, cm)
      else (true, fun i => if i < 16 then some (defaultPort ports port) else cm i) := by
  cases port with
  | none => rfl
  | some name =>
    simp only [MIDIMAP_LoadSettingsDefault, defaultPort]
    cases hf : MIDIMAP_FindPort ports name <;> rfl

theorem loadSettings_defaultRegistry (ports : List MIDIOUTPORT) (cm : Nat → Option Nat)
    (port : Option (List Nat)) :
    MIDIMAP_LoadSettings ports (defaultRegistry port) cm =
      MIDIMAP_LoadSettingsDefault ports cm port := by
  cases port <;> rfl

/-- The loop of modOpen runs through when every channel it visits is bound
to a port of the table, and keeps the length of the table. -/
theorem modOpen_loop_ok (cm : Nat → Option Nat) :
    ∀ (l : List Nat) (ports : List MIDIOUTPORT),
      (∀ chn ∈ l, ∃ dev, cm chn = some dev ∧ dev < ports.length) →
      ∃ ports1, l.foldlM (modOpen_channel cm) ports = some ports1 ∧
        ports1.length = ports.length := by
  intro l
  induction l with
  | nil => intro ports _; exact ⟨ports, rfl, rfl⟩
  | cons chn l ih =>
    intro ports h
    obtain ⟨dev, hdev, hlt⟩ := h chn (List.mem_cons_self _ _)
    have hget : ports[dev]? = some ports[dev] := List.getElem?_eq_getElem hlt
    have hstep : ∃ ports0, modOpen_channel cm ports chn = some ports0 ∧
        ports0.length = ports.length := by
      unfold modOpen_channel
      simp only [hdev, hget]
      split
      · exact ⟨ports, rfl, rfl⟩
      · exact ⟨_, rfl, List.length_set _ _ _⟩
    obtain ⟨ports0, hs0, hl0⟩ := hstep
    have h0 : ∀ c ∈ l, ∃ dev, cm c = some dev ∧ dev < ports0.length := by
      intro c hc
      obtain ⟨dv, h1, h2⟩ := h c (List.mem_cons_of_mem _ hc)
      exact ⟨dv, h1, by omega⟩
    obtain ⟨ports1, hf, hl1⟩ := ih ports0 h0
    refine ⟨ports1, ?_, by omega⟩
    simp [List.foldlM, hs0, hf]


/-- The function modOpen once HeapAlloc has succeeded and lpDesc is not NULL. -/
theorem modOpen_eq (d : Driver) (reg : Registry) {mom : Nat} (hmom : mom ≠ 0) (m0 : MIDIMAPDATA)
    (desc : MIDIOPENDESC) (dwFlags : Nat) {cm1 : Nat → Option Nat} {ok : Bool}
    (hload : MIDIMAP_LoadSettings d.midiOutPorts reg m0.ChannelMap = (ok, cm1)) :
    modOpen d reg mom m0 (some desc) dwFlags =
      if ok then
        match (List.range 16).foldlM (modOpen_channel cm1) d.midiOutPorts with
        | none => none
        | some ports =>
          some (MMSYSERR_NOERROR,
            request_midi_open (MIDIMAP_NotifyClient
              (storeSession { d with midiOutPorts := ports } mom
                { self := mom, ChannelMap := cm1, midiDesc := desc, runningStatus := 0,
                  wCbFlags := HIWORD (dwFlags &&& CALLBACK_TYPEMASK) })
              { self := mom, ChannelMap := cm1, midiDesc := desc, runningStatus := 0,
                wCbFlags := HIWORD (dwFlags &&& CALLBACK_TYPEMASK) } MOM_OPEN 0 0))
      else some (MIDIERR_INVALIDSETUP, d) := by
  unfold modOpen
  simp only [if_neg hmom, hload]

/-- C8. MIDIMAP_LoadSettingsDefault returns FALSE exactly when the port table
is empty, and modOpen configured for the default fill then returns
MIDIERR_INVALIDSETUP exactly in that case.  Otherwise the chosen port (the
one MIDIMAP_FindPort resolves the name to, or port 0 when the name is
absent or does not resolve) is a port of the table, all 16 channels are
bound to it, and modOpen returns MMSYSERR_NOERROR with that channel map
in the session. -/
theorem loadSettingsDefault_fill (d : Driver) (port : Option (List Nat))
    (mom : Nat) (m0 : MIDIMAPDATA) (desc : MIDIOPENDESC) (dwFlags : Nat) (hmom : mom ≠ 0) :
    ((MIDIMAP_LoadSettingsDefault d.midiOutPorts m0.ChannelMap port).1 = false
      ↔ d.midiOutPorts = []) ∧
    (codeOf (modOpen d (defaultRegistry port) mom m0 (some desc) dwFlags)
        = some MIDIERR_INVALIDSETUP ↔ d.midiOutPorts = []) ∧
    (d.midiOutPorts = [] ∨
      (defaultPort d.midiOutPorts port < d.midiOutPorts.length ∧
        (∀ i, i < 16 → (MIDIMAP_LoadSettingsDefault d.midiOutPorts m0.ChannelMap port).2 i
          = some (defaultPort d.midiOutPorts port)) ∧
        codeOf (modOpen d (defaultRegistry port) mom m0 (some desc) dwFlags)
          = some MMSYSERR_NOERROR ∧
        (∀ i, i < 16 →
          channelMapOf mom (modOpen d (defaultRegistry port) mom m0 (some desc) dwFlags) i
            = some (defaultPort d.midiOutPorts port)))) := by
  by_cases hne : d.midiOutPorts = []
  · have hge : defaultPort d.midiOutPorts port ≥ d.midiOutPorts.length := by
      rw [hne]; exact Nat.zero_le _
    have hl : MIDIMAP_LoadSettingsDefault d.midiOutPorts m0.ChannelMap port
        = (false, m0.ChannelMap) := by
      rw [loadSettingsDefault_eq, if_pos hge]
    have hopen := modOpen_eq d (defaultRegistry port) hmom m0 desc dwFlags
      ((loadSettings_defaultRegistry _ _ _).trans hl)
    refine ⟨⟨fun _ => hne, fun _ => by rw [hl]⟩, ⟨fun _ => hne, fun _ => ?_⟩, Or.inl hne⟩
    rw [hopen]; rfl
  · have hlt := defaultPort_lt_length port hne
    have hl : MIDIMAP_LoadSettingsDefault d.midiOutPorts m0.ChannelMap port
        = (true, fun i => if i < 16 then some (defaultPort d.midiOutPorts port)
            else m0.ChannelMap i) := by
      rw [loadSettingsDefault_eq, if_neg (by omega)]
    have hopen := modOpen_eq d (defaultRegistry port) hmom m0 desc dwFlags
      ((loadSettings_defaultRegistry _ _ _).trans hl)
    obtain ⟨ports1, hfold, _⟩ := modOpen_loop_ok
      (fun i => if i < 16 then some (defaultPort d.midiOutPorts port) else m0.ChannelMap i)
      (List.range 16) d.midiOutPorts (by
        intro chn hchn
        exact ⟨defaultPort d.midiOutPorts port, if_pos (List.mem_range.mp hchn), hlt⟩)
    rw [hfold] at hopen
    simp only [if_true] at hopen
    have hcode : codeOf (modOpen d (defaultRegistry port) mom m0 (some desc) dwFlags)
        = some MMSYSERR_NOERROR := by rw [hopen]; rfl
    refine ⟨⟨fun h => ?_, fun h => absurd h hne⟩, ⟨fun h => ?_, fun h => absurd h hne⟩,
      Or.inr ⟨hlt, ?_, hcode, ?_⟩⟩
    · rw [hl] at h; cases h
    · rw [hcode] at h; cases h
    · intro i hi; rw [hl]; simp [hi]
    · intro i hi
      rw [hopen]
      simp [channelMapOf, request_midi_open, request_midi_data, setCode, MIDIMAP_NotifyClient,
        storeSession, hi]

theorem loadSettingsDefault_fill_witness :
    ((MIDIMAP_LoadSettingsDefault plainDriver.midiOutPorts
        (sessionAt 0 onlyChannel1 0).ChannelMap (some [88])).1 = false
      ↔ plainDriver.midiOutPorts = []) ∧
    (codeOf (modOpen plainDriver (defaultRegistry (some [88])) 2000 (sessionAt 0 onlyChannel1 0)
        (some { hMidi := 0, dwCallback := 0, dwInstance := 0 }) 0)
        = some MIDIERR_INVALIDSETUP ↔ plainDriver.midiOutPorts = []) ∧
    (plainDriver.midiOutPorts = [] ∨
      (defaultPort plainDriver.midiOutPorts (some [88]) < plainDriver.midiOutPorts.length ∧
        (∀ i, i < 16 → (MIDIMAP_LoadSettingsDefault plainDriver.midiOutPorts
            (sessionAt 0 onlyChannel1 0).ChannelMap (some [88])).2 i
          = some (defaultPort plainDriver.midiOutPorts (some [88]))) ∧
        codeOf (modOpen plainDriver (defaultRegistry (some [88])) 2000
            (sessionAt 0 onlyChannel1 0) (some { hMidi := 0, dwCallback := 0, dwInstance := 0 }) 0)
          = some MMSYSERR_NOERROR ∧
        (∀ i, i < 16 →
          channelMapOf 2000 (modOpen plainDriver (defaultRegistry (some [88])) 2000
            (sessionAt 0 onlyChannel1 0) (some { hMidi := 0, dwCallback := 0, dwInstance := 0 }) 0) i
            = some (defaultPort plainDriver.midiOutPorts (some [88]))))) :=
  loadSettingsDefault_fill plainDriver (some [88]) 2000 (sessionAt 0 onlyChannel1 0)
    { hMidi := 0, dwCallback := 0, dwInstance := 0 } 0 (by decide)


/-! ## The scheme fill -/

theorem and_bit_ne_zero (mask j : Nat) : mask &&& (1 <<< j) ≠ 0 ↔ mask.testBit j = true := by
  rw [Nat.one_shiftLeft, Nat.and_two_pow]
  have hpos : 0 < 2 ^ j := Nat.two_pow_pos j
  cases mask.testBit j
  · simp
  · simp only [Bool.toNat_true, Nat.one_mul, iff_true]
    omega

theorem schemeBind_range (dev mask : Nat) :
    ∀ (n : Nat) (cm : Nat → Option Nat) (i : Nat),
      (List.range n).foldl
        (fun cm j => if mask &&& (1 <<< j) ≠ 0 then Function.update cm j (some dev) else cm) cm i
      = if i < n ∧ mask.testBit i = true then some dev else cm i := by
  intro n
  induction n with
  | zero => intro cm i; simp
  | succ n ih =>
    intro cm i
    rw [List.range_succ, List.foldl_append]
    simp only [List.foldl_cons, List.foldl_nil]
    by_cases hbit : mask &&& (1 <<< n) ≠ 0
    · rw [if_pos hbit]
      have hb := (and_bit_ne_zero mask n).mp hbit
      by_cases hin : i = n
      · subst hin
        simp [hb]
      · rw [Function.update_noteq hin, ih]
        by_cases h1 : i < n ∧ mask.testBit i = true
        · rw [if_pos h1, if_pos ⟨by omega, h1.2⟩]
        · rw [if_neg h1, if_neg]
          rintro ⟨h2, h3⟩
          exact h1 ⟨by omega, h3⟩
    · rw [if_neg hbit, ih]
      have hb : ¬ mask.testBit n = true := fun h => hbit ((and_bit_ne_zero mask n).mpr h)
      by_cases h1 : i < n ∧ mask.testBit i = true
      · rw [if_pos h1, if_pos ⟨by omega, h1.2⟩]
      · rw [if_neg h1, if_neg]
        rintro ⟨h2, h3⟩
        by_cases hin : i = n
        · subst hin; exact hb h3
        · exact h1 ⟨by omega, h3⟩

theorem schemeBind_apply (dev mask : Nat) (cm : Nat → Option Nat) (i : Nat) :
    schemeBind dev mask cm i = if i < 16 ∧ mask.testBit i = true then some dev else cm i :=
  schemeBind_range dev mask 16 cm i

theorem testBit_mod_32 {mask i : Nat} (hi : i < 16) :
    (mask % 2 ^ 32).testBit i = mask.testBit i := by
  rw [Nat.testBit_mod_two_pow]
  simp [show i < 32 by omega]

theorem schemeStep_pairKey (ports : List MIDIOUTPORT) (cm : Nat → Option Nat)
    (p : List Nat × Nat) (i : Nat) :
    schemeStep ports cm (pairKey p) i =
      match MIDIMAP_FindPort ports p.1 with
      | some dev => if i < 16 ∧ p.2.testBit i = true then some dev else cm i
      | none => cm i := by
  simp only [schemeStep, pairKey]
  cases hf : MIDIMAP_FindPort ports p.1 with
  | none => simp
  | some dev =>
    simp only [Bool.not_true, Bool.false_eq_true, if_false, schemeBind_apply]
    by_cases hi : i < 16
    · rw [testBit_mod_32 hi]
    · simp [hi]

theorem schemeFill_pairs (ports : List MIDIOUTPORT) (cm : Nat → Option Nat) (i : Nat) :
    ∀ pairs : List (List Nat × Nat),
      schemeFill ports (pairs.map pairKey) cm i =
        if i < 16 then
          match lastWins ports pairs i with
          | some dev => some dev
          | none => cm i
        else cm i := by
  intro pairs
  induction pairs using List.reverseRecOn with
  | nil => simp [schemeFill, lastWins]
  | append_singleton pairs p ih =>
    have hfill : schemeFill ports ((pairs ++ [p]).map pairKey) cm i =
        schemeStep ports (schemeFill ports (pairs.map pairKey) cm) (pairKey p) i := by
      simp [schemeFill, List.foldl_append]
    rw [hfill, schemeStep_pairKey, ih]
    have hlast : lastWins ports (pairs ++ [p]) i =
        if ((MIDIMAP_FindPort ports p.1).isSome && p.2.testBit i) = true
        then MIDIMAP_FindPort ports p.1 else lastWins ports pairs i := by
      simp only [lastWins, List.reverse_append, List.reverse_cons, List.reverse_nil,
        List.nil_append, List.singleton_append, List.find?_cons]
      cases hpred : ((MIDIMAP_FindPort ports p.1).isSome && p.2.testBit i) <;> simp
    rw [hlast]
    cases hf : MIDIMAP_FindPort ports p.1 with
    | none => simp
    | some dev =>
      by_cases hi : i < 16
      · by_cases hb : p.2.testBit i = true
        · simp [hi, hb]
        · simp [hi, hb]
      · simp [hi]

theorem testBit_mod_16 {mask i : Nat} (hi : i < 16) :
    (mask % 65536).testBit i = mask.testBit i := by
  rw [show (65536 : Nat) = 2 ^ 16 from rfl, Nat.testBit_mod_two_pow]
  simp [hi]

theorem schemeStep_mask_mod (ports : List MIDIOUTPORT) (cm : Nat → Option Nat)
    (p : List Nat × Nat) :
    schemeStep ports cm (pairKey (p.1, p.2 % 65536)) = schemeStep ports cm (pairKey p) := by
  funext i
  rw [schemeStep_pairKey, schemeStep_pairKey]
  cases hf : MIDIMAP_FindPort ports p.1 with
  | none => simp [hf]
  | some dev =>
    by_cases hi : i < 16
    · simp [hf, testBit_mod_16 hi]
    · simp [hf, hi]

theorem schemeFill_mask_mod (ports : List MIDIOUTPORT) :
    ∀ (pairs : List (List Nat × Nat)) (cm : Nat → Option Nat),
      schemeFill ports ((pairs.map fun p => (p.1, p.2 % 65536)).map pairKey) cm =
        schemeFill ports (pairs.map pairKey) cm := by
  intro pairs
  induction pairs with
  | nil => intro cm; rfl
  | cons p pairs ih =>
    intro cm
    simp only [schemeFill, List.map_cons, List.foldl_cons] at ih ⊢
    rw [schemeStep_mask_mod]
    exact ih _

/-- C10. When the scheme resolves to an ordered list of (port name, channel
mask) pairs, MIDIMAP_LoadSettingsScheme returns TRUE and binds each channel
i in 0..15 to the port lastWins names: the one resolved from the last
pair whose name resolves and whose mask has bit i set, or none when there
is no such pair.  The loop gives the same channel map when every mask is
reduced modulo 2^16, so bits 16 and above have no effect. -/
theorem scheme_fill_last_wins (ports : List MIDIOUTPORT) (reg : Registry)
    (cm : Nat → Option Nat) (scheme : List Nat) (tbl : List Nat → Option (List SchemeKey))
    (pairs : List (List Nat × Nat))
    (hreg : reg.Schemes = some tbl) (hscheme : tbl scheme = some (pairs.map pairKey)) :
    (MIDIMAP_LoadSettingsScheme ports reg cm scheme).1 = true ∧
    (∀ i, i < 16 →
      (MIDIMAP_LoadSettingsScheme ports reg cm scheme).2 i = lastWins ports pairs i) ∧
    (∀ cm0 : Nat → Option Nat,
      schemeFill ports ((pairs.map fun p => (p.1, p.2 % 65536)).map pairKey) cm0 =
        schemeFill ports (pairs.map pairKey) cm0) := by
  have hload : MIDIMAP_LoadSettingsScheme ports reg cm scheme =
      (true, schemeFill ports (pairs.map pairKey) fun i => if i < 16 then none else cm i) := by
    simp only [MIDIMAP_LoadSettingsScheme, hreg, hscheme]
  refine ⟨by rw [hload], ?_, schemeFill_mask_mod ports pairs⟩
  intro i hi
  rw [hload]
  show schemeFill ports (pairs.map pairKey) _ i = _
  rw [schemeFill_pairs, if_pos hi]
  cases lastWins ports pairs i <;> simp [hi]

theorem scheme_fill_last_wins_witness :
    ((MIDIMAP_LoadSettingsScheme portsAB (schemeRegistry [([65], 3), ([66], 3)])
        allToPort0 []).1 = true ∧
      (∀ i, i < 16 →
        (MIDIMAP_LoadSettingsScheme portsAB (schemeRegistry [([65], 3), ([66], 3)])
          allToPort0 []).2 i = lastWins portsAB [([65], 3), ([66], 3)] i) ∧
      (∀ cm0 : Nat → Option Nat,
        schemeFill portsAB
            (([([65], 3), ([66], 3)].map fun p => (p.1, p.2 % 65536)).map pairKey) cm0 =
          schemeFill portsAB ([([65], 3), ([66], 3)].map pairKey) cm0)) ∧
    (List.range 16).map (MIDIMAP_LoadSettingsScheme portsAB
        (schemeRegistry [([65], 3), ([66], 3)]) allToPort0 []).2
      = [some 1, some 1, none, none, none, none, none, none,
         none, none, none, none, none, none, none, none] :=
  ⟨scheme_fill_last_wins portsAB (schemeRegistry [([65], 3), ([66], 3)]) allToPort0 []
      (fun name => if name = [] then some ([([65], 3), ([66], 3)].map pairKey) else none)
      [([65], 3), ([66], 3)] rfl rfl,
    by decide⟩

/-! ## Close and the stale handle -/

/-- C9: the code at the failing input.  A session is opened at address 1000
and closed; modClose frees the block without clearing self.  When the
freed block still reads as it did, MIDIMAP_IsBadData accepts the stale
handle: modData of the status 0xFE returns MMSYSERR_NOERROR and sends a
third datagram after those of open and close.  Only when the freed block is
no longer readable does modData return MMSYSERR_ERROR and send nothing. -/
theorem modData_after_close_stale_handle :
    codeOf openedAt1000 = some MMSYSERR_NOERROR ∧
    codeOf closedIntact = some MMSYSERR_NOERROR ∧
    codeOf (andThen closedIntact fun d => modData d 1000 0xFE) = some MMSYSERR_NOERROR ∧
    framesOf (andThen closedIntact fun d => modData d 1000 0xFE)
      = some [[5, 0, 0, 0, 0, 0, 0, 0, 0], [6, 0, 0, 0, 0, 0, 0, 0, 0],
              [1, 0xFE, 0, 0, 0, 0, 0, 0, 0]] ∧
    codeOf (andThen closedUnmapped fun d => modData d 1000 0xFE) = some MMSYSERR_ERROR ∧
    framesOf (andThen closedUnmapped fun d => modData d 1000 0xFE)
      = some [[5, 0, 0, 0, 0, 0, 0, 0, 0], [6, 0, 0, 0, 0, 0, 0, 0, 0]] := by
  decide

/-! ## Handles that fail the liveness check -/

/-- C11. For a handle that MIDIMAP_IsBadData rejects (the block is not
readable, or its self field is not the handle), modData, modLongData,
modPrepare, modUnprepare, modReset and modClose each return MMSYSERR_ERROR
and leave the whole driver state as it was: no datagram, no notification,
no change to any session, to the port table or to any buffer. -/
theorem bad_handle_no_effect (d : Driver) (mom : Nat)
    (hbad : MIDIMAP_IsBadData d mom = true)
    (dwParam lpMidiHdr dwParam2 dwSize : Nat) (freed : Option MIDIMAPDATA) :
    modData d mom dwParam = some (MMSYSERR_ERROR, d) ∧
    modLongData d mom lpMidiHdr dwParam2 = some (MMSYSERR_ERROR, d) ∧
    modPrepare d mom lpMidiHdr dwSize = (MMSYSERR_ERROR, d) ∧
    modUnprepare d mom lpMidiHdr dwSize = (MMSYSERR_ERROR, d) ∧
    modReset d mom = (MMSYSERR_ERROR, d) ∧
    modClose d mom freed = some (MMSYSERR_ERROR, d) := by
  simp [modData, modLongData, modPrepare, modUnprepare, modReset, modClose, hbad]

/-- The liveness check fails exactly when the block is unreadable or its
self field differs from the handle. -/
theorem isBadData_iff (d : Driver) (mom : Nat) :
    MIDIMAP_IsBadData d mom = true ↔
      d.heap mom = none ∨ ∃ m, d.heap mom = some m ∧ m.self ≠ mom := by
  unfold MIDIMAP_IsBadData
  cases h : d.heap mom with
  | none => simp
  | some m => simp

theorem bad_handle_no_effect_witness :
    modData foreignDriver 1000 0x403C90 = some (MMSYSERR_ERROR, foreignDriver) ∧
    modLongData foreignDriver 1000 7 0 = some (MMSYSERR_ERROR, foreignDriver) ∧
    modPrepare foreignDriver 1000 7 48 = (MMSYSERR_ERROR, foreignDriver) ∧
    modUnprepare foreignDriver 1000 7 48 = (MMSYSERR_ERROR, foreignDriver) ∧
    modReset foreignDriver 1000 = (MMSYSERR_ERROR, foreignDriver) ∧
    modClose foreignDriver 1000 none = some (MMSYSERR_ERROR, foreignDriver) :=
  bad_handle_no_effect foreignDriver 1000 (by decide) 0x403C90 7 0 48 none

/-! ## Long messages -/

theorem and_DONE_ne_zero (f : Nat) : f &&& MHDR_DONE ≠ 0 ↔ f.testBit 0 = true := by
  have h := Nat.and_two_pow f 0
  simp only [MHDR_DONE]
  rw [show (1 : Nat) = 2 ^ 0 from rfl, h]
  cases f.testBit 0 <;> simp

/-- The flags modLongData leaves on an accepted buffer, bit by bit: bit 0
(DONE) is set, bit 2 (IN-QUEUE) is clear, every other bit is as before. -/
theorem longData_flags {f : Nat} (hf : f < 2 ^ 32) (i : Nat) :
    ((((f &&& NOT_DONE) ||| MHDR_INQUEUE) &&& NOT_INQUEUE) ||| MHDR_DONE).testBit i =
      (decide (i = 0) || (!decide (i = 2) && f.testBit i)) := by
  have h1 : NOT_DONE = 2 ^ 32 - (2 ^ 0 + 1) := by decide
  have h2 : NOT_INQUEUE = 2 ^ 32 - (2 ^ 2 + 1) := by decide
  have h3 : MHDR_INQUEUE = 2 ^ 2 := by decide
  have h4 : MHDR_DONE = 2 ^ 0 := by decide
  rw [Nat.testBit_or, Nat.testBit_and, Nat.testBit_or, Nat.testBit_and, h1, h2, h3, h4,
    Nat.testBit_two_pow_sub_succ (by decide), Nat.testBit_two_pow_sub_succ (by decide),
    Nat.testBit_two_pow, Nat.testBit_two_pow]
  by_cases h32 : i < 32
  · by_cases h0 : i = 0
    · subst h0; simp
    · by_cases h2 : i = 2
      · subst h2; simp
      · have : ¬ 2 = i := fun h => h2 h.symm
        have : ¬ 0 = i := fun h => h0 h.symm
        simp [h32, h0, h2, *]
  · have hfi : f.testBit i = false := testBit_ge_of_lt hf (Nat.le_of_not_lt h32)
    have : ¬ 2 = i := by omega
    have : ¬ 0 = i := by omega
    have : ¬ i = 0 := by omega
    simp [h32, hfi, *]

/-- The function modLongData on a live session and a non-NULL buffer. -/
theorem modLongData_valid {d : Driver} {mom : Nat} {m : MIDIMAPDATA} {hdr : Nat}
    (hm : d.heap mom = some m) (hs : m.self = mom) (hhdr : hdr ≠ 0) (dwParam2 : Nat) :
    modLongData d mom hdr dwParam2 =
      if (d.hdrs hdr).dwFlags &&& MHDR_PREPARED = 0 then some (MIDIERR_UNPREPARED, d)
      else if (d.hdrs hdr).dwFlags &&& MHDR_INQUEUE ≠ 0 then some (MIDIERR_STILLPLAYING, d)
      else
        some (MMSYSERR_NOERROR,
          MIDIMAP_NotifyClient
            (storeFlags
              (storeSession
                (storeFlags d hdr (((d.hdrs hdr).dwFlags &&& NOT_DONE) ||| MHDR_INQUEUE))
                mom { m with runningStatus := 0 })
              hdr (((((d.hdrs hdr).dwFlags &&& NOT_DONE) ||| MHDR_INQUEUE) &&& NOT_INQUEUE)
                ||| MHDR_DONE))
            m MOM_DONE hdr 0) := by
  unfold modLongData
  rw [isBadData_valid hm hs]
  simp only [Bool.false_eq_true, if_false, hm, if_neg hhdr]
  by_cases h1 : (d.hdrs hdr).dwFlags &&& MHDR_PREPARED = 0
  · simp only [if_pos h1]
  · by_cases h2 : (d.hdrs hdr).dwFlags &&& MHDR_INQUEUE ≠ 0
    · simp only [if_neg h1, if_pos h2]
    · simp only [if_neg h1, if_neg h2]
      simp [request_midi_long, storeFlags, storeSession]

/-- C12. On a live session and a non-NULL buffer, modLongData returns
MIDIERR_UNPREPARED exactly when MHDR_PREPARED is clear and
MIDIERR_STILLPLAYING exactly when MHDR_PREPARED and MHDR_INQUEUE are both
set; in both cases the driver state is left as it was: the same flags, the
same running status, no notification. -/
theorem modLongData_rejection (d : Driver) (mom : Nat) (m : MIDIMAPDATA) (hdr dwParam2 : Nat)
    (hm : d.heap mom = some m) (hs : m.self = mom) (hhdr : hdr ≠ 0) :
    (codeOf (modLongData d mom hdr dwParam2) = some MIDIERR_UNPREPARED
      ↔ (d.hdrs hdr).dwFlags &&& MHDR_PREPARED = 0) ∧
    (codeOf (modLongData d mom hdr dwParam2) = some MIDIERR_STILLPLAYING
      ↔ ((d.hdrs hdr).dwFlags &&& MHDR_PREPARED ≠ 0 ∧
          (d.hdrs hdr).dwFlags &&& MHDR_INQUEUE ≠ 0)) ∧
    ((d.hdrs hdr).dwFlags &&& MHDR_PREPARED = 0
      → modLongData d mom hdr dwParam2 = some (MIDIERR_UNPREPARED, d)) ∧
    ((d.hdrs hdr).dwFlags &&& MHDR_PREPARED ≠ 0 ∧ (d.hdrs hdr).dwFlags &&& MHDR_INQUEUE ≠ 0
      → modLongData d mom hdr dwParam2 = some (MIDIERR_STILLPLAYING, d)) := by
  rw [modLongData_valid hm hs hhdr]
  by_cases h1 : (d.hdrs hdr).dwFlags &&& MHDR_PREPARED = 0
  · simp [h1, codeOf, MIDIERR_UNPREPARED, MIDIERR_STILLPLAYING]
  · by_cases h2 : (d.hdrs hdr).dwFlags &&& MHDR_INQUEUE ≠ 0
    · simp [h1, h2, codeOf, MIDIERR_UNPREPARED, MIDIERR_STILLPLAYING]
    · simp [h1, h2, codeOf, MIDIERR_UNPREPARED, MIDIERR_STILLPLAYING, MMSYSERR_NOERROR]

theorem modLongData_rejection_witness :
    (codeOf (modLongData (bufferDriver 6) 1000 7 0) = some MIDIERR_UNPREPARED
      ↔ ((bufferDriver 6).hdrs 7).dwFlags &&& MHDR_PREPARED = 0) ∧
    (codeOf (modLongData (bufferDriver 6) 1000 7 0) = some MIDIERR_STILLPLAYING
      ↔ (((bufferDriver 6).hdrs 7).dwFlags &&& MHDR_PREPARED ≠ 0 ∧
          ((bufferDriver 6).hdrs 7).dwFlags &&& MHDR_INQUEUE ≠ 0)) ∧
    modLongData (bufferDriver 6) 1000 7 0 = some (MIDIERR_STILLPLAYING, bufferDriver 6) :=
  have h := modLongData_rejection (bufferDriver 6) 1000 (sessionAt 1000 allToPort0 0x90) 7 0
    rfl rfl (by decide)
  ⟨h.1, h.2.1, h.2.2.2 (by decide)⟩


/-- C13. On a live session and a non-NULL buffer whose 32-bit flags have
MHDR_PREPARED set and MHDR_INQUEUE clear, modLongData returns
MMSYSERR_NOERROR; afterwards MHDR_INQUEUE is clear, MHDR_DONE and
MHDR_PREPARED are set, every flag bit other than DONE and IN-QUEUE is as
before, the running status of the session is 0, exactly one notification
was added, MOM_DONE with the buffer address as first parameter, and no
datagram was sent. -/
theorem modLongData_acceptance (d : Driver) (mom : Nat) (m : MIDIMAPDATA) (hdr dwParam2 : Nat)
    (hm : d.heap mom = some m) (hs : m.self = mom) (hhdr : hdr ≠ 0)
    (hf : (d.hdrs hdr).dwFlags < 2 ^ 32)
    (hprep : (d.hdrs hdr).dwFlags &&& MHDR_PREPARED ≠ 0)
    (hinq : (d.hdrs hdr).dwFlags &&& MHDR_INQUEUE = 0) :
    ∃ d1 : Driver,
      modLongData d mom hdr dwParam2 = some (MMSYSERR_NOERROR, d1) ∧
      (d1.hdrs hdr).dwFlags &&& MHDR_INQUEUE = 0 ∧
      (d1.hdrs hdr).dwFlags &&& MHDR_DONE ≠ 0 ∧
      (d1.hdrs hdr).dwFlags &&& MHDR_PREPARED ≠ 0 ∧
      (∀ i, i ≠ 0 → i ≠ 2 → (d1.hdrs hdr).dwFlags.testBit i = (d.hdrs hdr).dwFlags.testBit i) ∧
      (d1.heap mom).map (fun s => s.runningStatus) = some 0 ∧
      d1.notified = d.notified ++
        [{ dwCallback := m.midiDesc.dwCallback, wCbFlags := m.wCbFlags,
           hMidi := m.midiDesc.hMidi, wMsg := MOM_DONE, dwInstance := m.midiDesc.dwInstance,
           dwParam1 := hdr, dwParam2 := 0 }] ∧
      d1.sent = d.sent := by
  have hv := modLongData_valid hm hs hhdr dwParam2
  rw [if_neg hprep, if_neg (by simpa using hinq)] at hv
  refine ⟨_, hv, ?_, ?_, ?_, ?_, ?_, rfl, rfl⟩
  · simp only [MIDIMAP_NotifyClient, storeFlags, storeSession, Function.update_same]
    rw [and_INQUEUE_eq_zero, longData_flags hf]; simp
  · simp only [MIDIMAP_NotifyClient, storeFlags, storeSession, Function.update_same]
    rw [and_DONE_ne_zero, longData_flags hf]; simp
  · simp only [MIDIMAP_NotifyClient, storeFlags, storeSession, Function.update_same]
    rw [and_PREPARED_ne_zero, longData_flags hf]
    simpa using (and_PREPARED_ne_zero _).mp hprep
  · intro i h0 h2
    simp only [MIDIMAP_NotifyClient, storeFlags, storeSession, Function.update_same]
    rw [longData_flags hf]; simp [h0, h2]
  · simp [MIDIMAP_NotifyClient, storeFlags, storeSession]

theorem modLongData_acceptance_witness :
    ∃ d1 : Driver,
      modLongData (bufferDriver 0x12) 1000 7 0 = some (MMSYSERR_NOERROR, d1) ∧
      (d1.hdrs 7).dwFlags &&& MHDR_INQUEUE = 0 ∧
      (d1.hdrs 7).dwFlags &&& MHDR_DONE ≠ 0 ∧
      (d1.hdrs 7).dwFlags &&& MHDR_PREPARED ≠ 0 ∧
      (∀ i, i ≠ 0 → i ≠ 2 →
        (d1.hdrs 7).dwFlags.testBit i = ((bufferDriver 0x12).hdrs 7).dwFlags.testBit i) ∧
      (d1.heap 1000).map (fun s => s.runningStatus) = some 0 ∧
      d1.notified = (bufferDriver 0x12).notified ++
        [{ dwCallback := 0, wCbFlags := 0, hMidi := 0, wMsg := MOM_DONE, dwInstance := 0,
           dwParam1 := 7, dwParam2 := 0 }] ∧
      d1.sent = (bufferDriver 0x12).sent :=
  modLongData_acceptance (bufferDriver 0x12) 1000 (sessionAt 1000 allToPort0 0x90) 7 0
    rfl rfl (by decide) (by decide) (by decide) (by decide)


/-! ## Datagrams -/

theorem le64_bytes (v : Nat) :
    le64 v = [v % 256, v / 256 % 256, v / 65536 % 256, v / 16777216 % 256,
      v / 4294967296 % 256, v / 1099511627776 % 256, v / 281474976710656 % 256,
      v / 72057594037927936 % 256] := by
  simp [le64, byteOf, List.range, List.range.loop, Nat.shiftRight_eq_div_pow]

theorem unle64_le64 {v : Nat} (hv : v < 2 ^ 64) : unle64 (le64 v) = v := by
  rw [le64_bytes]
  simp only [unle64]
  have : (2 : Nat) ^ 64 = 18446744073709551616 := by decide
  omega

/-- C15. For every 64-bit value v, request_midi_short sends exactly one
datagram of 9 bytes: byte 0 is 1 and bytes 1..8 are the bytes of v from
the least significant to the most significant (byte i is v / 256^i mod
256), so that reading them back as a little-endian number gives v. -/
theorem request_midi_short_frame (d : Driver) (v : Nat) (hv : v < 2 ^ 64) :
    (request_midi_short d v).sent = d.sent ++ [REQUEST_CODE_MIDI_SHORT :: le64 v] ∧
    (REQUEST_CODE_MIDI_SHORT :: le64 v).length = BUFFER_SIZE ∧
    REQUEST_CODE_MIDI_SHORT = 1 ∧
    (∀ i, i < 8 → (le64 v)[i]? = some (v / 256 ^ i % 256)) ∧
    unle64 (le64 v) = v := by
  refine ⟨request_midi_short_sent d v, by simp [le64, BUFFER_SIZE], rfl, ?_, unle64_le64 hv⟩
  intro i hi
  rw [le64_bytes]
  interval_cases i <;> simp

theorem request_midi_short_frame_witness :
    (request_midi_short plainDriver 0x403C90).sent
      = plainDriver.sent ++ [REQUEST_CODE_MIDI_SHORT :: le64 0x403C90] ∧
    (REQUEST_CODE_MIDI_SHORT :: le64 0x403C90).length = BUFFER_SIZE ∧
    REQUEST_CODE_MIDI_SHORT = 1 ∧
    (∀ i, i < 8 → (le64 0x403C90)[i]? = some (0x403C90 / 256 ^ i % 256)) ∧
    unle64 (le64 0x403C90) = 0x403C90 :=
  request_midi_short_frame plainDriver 0x403C90 (by decide)

theorem request_data_sent (d : Driver) (code : Nat) :
    (request_midi_data (setCode d code)).sent = d.sent ++ [code :: payloadOf d] := by
  simp [request_midi_data, setCode, payloadOf, BUFFER_SIZE, List.range, List.range.loop,
    Function.update]

theorem request_data_payload (d : Driver) (code : Nat) :
    payloadOf (request_midi_data (setCode d code)) = payloadOf d := by
  simp [request_midi_data, setCode, payloadOf, Function.update]

theorem request_midi_short_payload (d : Driver) (v : Nat) :
    payloadOf (request_midi_short d v) = le64 v := by
  simp [request_midi_short, request_midi_data, setCode, payloadOf, le64, List.range,
    List.range.loop]

/-- C17, as stated, fails.  After the note-on 90 3C 40 the datagram of
modReset is 07 90 3C 40 00 00 00 00 00: bytes 1..8 still hold the short
message. -/
theorem reset_frame_after_short_message :
    framesOf (andThen (modData plainDriver 1000 0x403C90) fun d => some (modReset d 1000))
      = some [[1, 0x90, 0x3C, 0x40, 0, 0, 0, 0, 0], [7, 0x90, 0x3C, 0x40, 0, 0, 0, 0, 0]] := by
  decide

/-- Each of request_midi_prepare, request_midi_unprepare,
request_midi_open, request_midi_close and request_midi_reset sends one
datagram made of its request code followed by bytes 1..8 of send_buffer as
they were, and leaves those bytes as they were; request_midi_short sets
them to the bytes of its value. -/
theorem non_short_frames_keep_payload (d : Driver) (v : Nat) :
    ((request_midi_prepare d).sent = d.sent ++ [REQUEST_CODE_MIDI_PREPARE :: payloadOf d] ∧
      (request_midi_unprepare d).sent = d.sent ++ [REQUEST_CODE_MIDI_UNPREPARE :: payloadOf d] ∧
      (request_midi_open d).sent = d.sent ++ [REQUEST_CODE_MIDI_OPEN :: payloadOf d] ∧
      (request_midi_close d).sent = d.sent ++ [REQUEST_CODE_MIDI_CLOSE :: payloadOf d] ∧
      (request_midi_reset d).sent = d.sent ++ [REQUEST_CODE_MIDI_RESET :: payloadOf d]) ∧
    (payloadOf (request_midi_prepare d) = payloadOf d ∧
      payloadOf (request_midi_unprepare d) = payloadOf d ∧
      payloadOf (request_midi_open d) = payloadOf d ∧
      payloadOf (request_midi_close d) = payloadOf d ∧
      payloadOf (request_midi_reset d) = payloadOf d) ∧
    payloadOf (request_midi_short d v) = le64 v :=
  ⟨⟨request_data_sent d _, request_data_sent d _, request_data_sent d _,
     request_data_sent d _, request_data_sent d _⟩,
   ⟨request_data_payload d _, request_data_payload d _, request_data_payload d _,
     request_data_payload d _, request_data_payload d _⟩,
   request_midi_short_payload d v⟩


/-! ## Lifecycle events -/

/-- What a successful modOpen did: the settings were loaded, the loop over
the channels ran through, and the state is the one built from them. -/
theorem modOpen_success {d d1 : Driver} {reg : Registry} {mom : Nat} {m0 : MIDIMAPDATA}
    {lpDesc : Option MIDIOPENDESC} {dwFlags : Nat}
    (h : modOpen d reg mom m0 lpDesc dwFlags = some (MMSYSERR_NOERROR, d1)) :
    ∃ (desc : MIDIOPENDESC) (cm1 : Nat → Option Nat) (ports1 : List MIDIOUTPORT),
      mom ≠ 0 ∧ lpDesc = some desc ∧
      MIDIMAP_LoadSettings d.midiOutPorts reg m0.ChannelMap = (true, cm1) ∧
      (List.range 16).foldlM (modOpen_channel cm1) d.midiOutPorts = some ports1 ∧
      d1 = request_midi_open (MIDIMAP_NotifyClient
        (storeSession { d with midiOutPorts := ports1 } mom
          { self := mom, ChannelMap := cm1, midiDesc := desc, runningStatus := 0,
            wCbFlags := HIWORD (dwFlags &&& CALLBACK_TYPEMASK) })
        { self := mom, ChannelMap := cm1, midiDesc := desc, runningStatus := 0,
          wCbFlags := HIWORD (dwFlags &&& CALLBACK_TYPEMASK) } MOM_OPEN 0 0) := by
  by_cases hmom : mom = 0
  · simp [modOpen, hmom, MMSYSERR_NOMEM, MMSYSERR_NOERROR] at h
  · cases lpDesc with
    | none => simp [modOpen, hmom, MMSYSERR_INVALPARAM, MMSYSERR_NOERROR] at h
    | some desc =>
      cases hl : MIDIMAP_LoadSettings d.midiOutPorts reg m0.ChannelMap with
      | mk ok cm1 =>
        rw [modOpen_eq d reg hmom m0 desc dwFlags hl] at h
        cases ok with
        | false => simp [MIDIERR_INVALIDSETUP, MMSYSERR_NOERROR] at h
        | true =>
          simp only [if_true] at h
          cases hf : (List.range 16).foldlM (modOpen_channel cm1) d.midiOutPorts with
          | none => simp [hf] at h
          | some ports1 =>
            simp only [hf, Option.some.injEq, Prod.mk.injEq, true_and] at h
            exact ⟨desc, cm1, ports1, hmom, rfl, rfl, hf, h.symm⟩

/-- The loop of modClose runs through when every bound channel points
into the port table, and keeps the length of the table. -/
theorem modClose_loop_ok (cm : Nat → Option Nat) :
    ∀ (l : List Nat) (ports : List MIDIOUTPORT),
      (∀ i ∈ l, ∀ dev, cm i = some dev → dev < ports.length) →
      ∃ ports1, l.foldlM (modClose_channel cm) ports = some ports1 ∧
        ports1.length = ports.length := by
  intro l
  induction l with
  | nil => intro ports _; exact ⟨ports, rfl, rfl⟩
  | cons i l ih =>
    intro ports h
    have hstep : ∃ ports0, modClose_channel cm ports i = some ports0 ∧
        ports0.length = ports.length := by
      unfold modClose_channel
      cases hc : cm i with
      | none => exact ⟨ports, rfl, rfl⟩
      | some dev =>
        have hlt := h i (List.mem_cons_self _ _) dev hc
        have hget : ports[dev]? = some ports[dev] := List.getElem?_eq_getElem hlt
        simp only [hget]
        split
        · exact ⟨_, rfl, List.length_set _ _ _⟩
        · exact ⟨ports, rfl, rfl⟩
    obtain ⟨ports0, hs0, hl0⟩ := hstep
    have h0 : ∀ j ∈ l, ∀ dev, cm j = some dev → dev < ports0.length := by
      intro j hj dev hdev
      have := h j (List.mem_cons_of_mem _ hj) dev hdev
      omega
    obtain ⟨ports1, hf, hl1⟩ := ih ports0 h0
    refine ⟨ports1, ?_, by omega⟩
    simp [List.foldlM, hs0, hf]

theorem payloadOf_length (d : Driver) (code : Nat) :
    (code :: payloadOf d).length = BUFFER_SIZE := by
  simp [payloadOf, BUFFER_SIZE]

/-- C16. A successful modOpen, and on a live session modClose (with every
bound channel pointing into the port table), modReset, and modPrepare and
modUnprepare on a valid buffer (whatever its flags and whatever code they
return) each add exactly one datagram to those sent: 9 bytes, the first
being the request code of the event (5, 6, 7, 3, 4). -/
theorem one_frame_per_event (d : Driver) (mom : Nat) (m : MIDIMAPDATA) (hdr sz : Nat)
    (freed : Option MIDIMAPDATA)
    (d0 dopen : Driver) (reg : Registry) (mom0 : Nat) (m0 : MIDIMAPDATA)
    (lpDesc : Option MIDIOPENDESC) (dwFlags : Nat)
    (hm : d.heap mom = some m) (hs : m.self = mom)
    (hptr : ∀ i ∈ List.range 16, ∀ dev, m.ChannelMap i = some dev → dev < d.midiOutPorts.length)
    (hsz : offsetof_MIDIHDR_dwOffset ≤ sz) (hhdr : hdr ≠ 0) (hdata : (d.hdrs hdr).lpData ≠ 0)
    (hopen : modOpen d0 reg mom0 m0 lpDesc dwFlags = some (MMSYSERR_NOERROR, dopen)) :
    dopen.sent = d0.sent ++ [REQUEST_CODE_MIDI_OPEN :: payloadOf d0] ∧
    (∃ dc, modClose d mom freed = some (MMSYSERR_NOERROR, dc) ∧
      dc.sent = d.sent ++ [REQUEST_CODE_MIDI_CLOSE :: payloadOf d]) ∧
    ((modReset d mom).1 = MMSYSERR_NOERROR ∧
      (modReset d mom).2.sent = d.sent ++ [REQUEST_CODE_MIDI_RESET :: payloadOf d]) ∧
    (modPrepare d mom hdr sz).2.sent = d.sent ++ [REQUEST_CODE_MIDI_PREPARE :: payloadOf d] ∧
    (modUnprepare d mom hdr sz).2.sent
      = d.sent ++ [REQUEST_CODE_MIDI_UNPREPARE :: payloadOf d] ∧
    (∀ code, (code :: payloadOf d).length = 9) ∧
    (REQUEST_CODE_MIDI_OPEN = 5 ∧ REQUEST_CODE_MIDI_CLOSE = 6 ∧ REQUEST_CODE_MIDI_RESET = 7 ∧
      REQUEST_CODE_MIDI_PREPARE = 3 ∧ REQUEST_CODE_MIDI_UNPREPARE = 4) := by
  refine ⟨?_, ?_, ?_, ?_, ?_, fun code => payloadOf_length d code, ⟨rfl, rfl, rfl, rfl, rfl⟩⟩
  · obtain ⟨desc, cm1, ports1, _, _, _, _, hd⟩ := modOpen_success hopen
    rw [hd]
    exact request_data_sent _ _
  · obtain ⟨ports1, hf, _⟩ := modClose_loop_ok m.ChannelMap (List.range 16) d.midiOutPorts hptr
    unfold modClose
    rw [isBadData_valid hm hs]
    simp only [Bool.false_eq_true, if_false, hm, hf]
    exact ⟨_, rfl, request_data_sent _ _⟩
  · unfold modReset
    rw [isBadData_valid hm hs]
    simp only [Bool.false_eq_true, if_false, hm]
    exact ⟨trivial, request_data_sent _ _⟩
  · have hguard : ¬ (sz < offsetof_MIDIHDR_dwOffset ∨ hdr = 0 ∨ (d.hdrs hdr).lpData = 0) := by
      rintro (h | h | h)
      · omega
      · exact hhdr h
      · exact hdata h
    unfold modPrepare
    rw [isBadData_valid hm hs]
    simp only [Bool.false_eq_true, if_false, if_neg hguard]
    split
    · exact request_data_sent _ _
    · exact request_data_sent _ _
  · rw [modUnprepare_valid hm hs hsz hhdr hdata]
    split
    · exact request_data_sent _ _
    · split
      · exact request_data_sent _ _
      · exact request_data_sent _ _


theorem one_frame_per_event_witness :
    openedDriver.sent = freshDriver.sent ++ [REQUEST_CODE_MIDI_OPEN :: payloadOf freshDriver] ∧
    (∃ dc, modClose (bufferDriver 6) 1000 none = some (MMSYSERR_NOERROR, dc) ∧
      dc.sent = (bufferDriver 6).sent ++ [REQUEST_CODE_MIDI_CLOSE :: payloadOf (bufferDriver 6)]) ∧
    ((modReset (bufferDriver 6) 1000).1 = MMSYSERR_NOERROR ∧
      (modReset (bufferDriver 6) 1000).2.sent
        = (bufferDriver 6).sent ++ [REQUEST_CODE_MIDI_RESET :: payloadOf (bufferDriver 6)]) ∧
    (modPrepare (bufferDriver 6) 1000 7 44).2.sent
      = (bufferDriver 6).sent ++ [REQUEST_CODE_MIDI_PREPARE :: payloadOf (bufferDriver 6)] ∧
    (modUnprepare (bufferDriver 6) 1000 7 44).2.sent
      = (bufferDriver 6).sent ++ [REQUEST_CODE_MIDI_UNPREPARE :: payloadOf (bufferDriver 6)] ∧
    (∀ code, (code :: payloadOf (bufferDriver 6)).length = 9) ∧
    (REQUEST_CODE_MIDI_OPEN = 5 ∧ REQUEST_CODE_MIDI_CLOSE = 6 ∧ REQUEST_CODE_MIDI_RESET = 7 ∧
      REQUEST_CODE_MIDI_PREPARE = 3 ∧ REQUEST_CODE_MIDI_UNPREPARE = 4) :=
  one_frame_per_event (bufferDriver 6) 1000 (sessionAt 1000 allToPort0 0x90) 7 44 none
    freshDriver openedDriver (defaultRegistry none) 1000 (sessionAt 0 onlyChannel1 0)
    (some { hMidi := 0, dwCallback := 0, dwInstance := 0 }) 0
    rfl rfl (fun _ _ dev h => by simp [allToPort0, sessionAt] at h; subst h; decide)
    (by decide) (by decide) (by decide) rfl


/-! ## The running status after a short message -/

/-- C18. On a live session, for a value v whose status byte s = v mod 256
is at least 0x80 and whose channel is bound to a port of the table,
modData returns MMSYSERR_NOERROR.  For s in 0x80..0xEF the running status
afterwards is s, also when the port is not loaded, in which case no
datagram is sent.  For s in 0xF0..0xF7 it is 0, for s in 0xF8..0xFF it is
what it was.  For s in 0xF0..0xFF exactly one datagram is sent, code 1
followed by the bytes of v itself. -/
theorem modData_running_status_transition (d : Driver) (mom : Nat) (m : MIDIMAPDATA)
    (v dev : Nat) (hm : d.heap mom = some m) (hs : m.self = mom)
    (hstatus : 0x80 ≤ v % 256) (hbound : m.ChannelMap (v % 256 % 16) = some dev)
    (hdev : dev < d.midiOutPorts.length) :
    codeOf (modData d mom v) = some MMSYSERR_NOERROR ∧
    (v % 256 ≤ 0xEF →
      runningStatusOf mom (modData d mom v) = some (v % 256) ∧
      (∀ port, d.midiOutPorts[dev]? = some port → ¬ port.loaded > 0 →
        framesOf (modData d mom v) = some d.sent)) ∧
    (0xF0 ≤ v % 256 → v % 256 ≤ 0xF7 → runningStatusOf mom (modData d mom v) = some 0) ∧
    (0xF8 ≤ v % 256 → runningStatusOf mom (modData d mom v) = some m.runningStatus) ∧
    (0xF0 ≤ v % 256 →
      framesOf (modData d mom v) = some (d.sent ++ [REQUEST_CODE_MIDI_SHORT :: le64 v])) := by
  have hlt : v % 256 < 256 := Nat.mod_lt _ (by decide)
  rw [modData_valid hm hs, if_neg (by omega)]
  by_cases hvoice : v % 256 ≤ 0xEF
  · have hport : d.midiOutPorts[dev]? = some d.midiOutPorts[dev] :=
      List.getElem?_eq_getElem hdev
    rw [dispatch_voice hstatus hvoice hbound hport]
    refine ⟨rfl, fun _ => ⟨?_, ?_⟩, fun h => absurd h (by omega), fun h => absurd h (by omega),
      fun h => absurd h (by omega)⟩
    · simp [runningStatusOf, storeSession]
    · intro port hp hnl
      rw [hport] at hp
      cases hp
      rw [if_neg hnl]
      rfl
  · rw [dispatch_system (by omega) hlt hbound]
    by_cases h7 : v % 256 ≤ 0xF7
    · rw [if_pos h7]
      refine ⟨rfl, fun h => absurd h hvoice, fun _ _ => ?_, fun h => absurd h (by omega),
        fun _ => ?_⟩
      · simp [runningStatusOf, storeSession]
      · simp [framesOf, storeSession, request_midi_short_sent]
    · rw [if_neg h7]
      refine ⟨rfl, fun h => absurd h hvoice, fun _ h => absurd h h7, fun _ => ?_, fun _ => ?_⟩
      · simp [runningStatusOf, request_midi_short_heap, hm]
      · simp [framesOf, request_midi_short_sent]

theorem modData_running_status_transition_witness :
    (codeOf (modData unloadedDriver 1000 0x403C90) = some MMSYSERR_NOERROR ∧
      runningStatusOf 1000 (modData unloadedDriver 1000 0x403C90) = some 0x90 ∧
      framesOf (modData unloadedDriver 1000 0x403C90) = some unloadedDriver.sent) ∧
    (runningStatusOf 1000 (modData unloadedDriver 1000 0xF1) = some 0 ∧
      framesOf (modData unloadedDriver 1000 0xF1)
        = some (unloadedDriver.sent ++ [REQUEST_CODE_MIDI_SHORT :: le64 0xF1])) ∧
    (runningStatusOf 1000 (modData unloadedDriver 1000 0xF8) = some 0x91 ∧
      framesOf (modData unloadedDriver 1000 0xF8)
        = some (unloadedDriver.sent ++ [REQUEST_CODE_MIDI_SHORT :: le64 0xF8])) :=
  have h1 := modData_running_status_transition unloadedDriver 1000
    (sessionAt 1000 allToPort0 0x91) 0x403C90 0 rfl rfl (by decide) rfl (by decide)
  have h2 := modData_running_status_transition unloadedDriver 1000
    (sessionAt 1000 allToPort0 0x91) 0xF1 0 rfl rfl (by decide) rfl (by decide)
  have h3 := modData_running_status_transition unloadedDriver 1000
    (sessionAt 1000 allToPort0 0x91) 0xF8 0 rfl rfl (by decide) rfl (by decide)
  ⟨⟨h1.1, (h1.2.1 (by decide)).1,
      (h1.2.1 (by decide)).2 (winlatorPort 0 none) rfl (by decide)⟩,
    ⟨h2.2.2.1 (by decide) (by decide), h2.2.2.2.2 (by decide)⟩,
    ⟨h3.2.2.2.1 (by decide), h3.2.2.2.2 (by decide)⟩⟩


/-! ## The index form of a port name -/

/-- C14: the code at the failing input.  With one port, whose name is not
the queried one, the name #4294967296 denotes N = 2^32, which is not below
the number of ports (1); MIDIMAP_FindPort nevertheless reports success,
with index 0: the accumulation in an unsigned wraps to 0. -/
theorem findPort_index_wraps :
    MIDIMAP_FindPort_exact nameHash2pow32 [winlatorPort 0 none] 0 = none ∧
    decimalValue 0 nameHash2pow32.tail = 4294967296 ∧
    ¬ (4294967296 < [winlatorPort 0 none].length) ∧
    MIDIMAP_FindPort [winlatorPort 0 none] nameHash2pow32 = some 0 := by
  decide

theorem digitStep_digit {dev c : Nat} (h1 : 48 ≤ c) :
    digitStep dev c = (dev * 10 + (c - 48)) % 2 ^ 32 := by
  unfold digitStep
  have : dev * 10 + c + (2 ^ 32 - 48) = dev * 10 + (c - 48) + 2 ^ 32 := by
    have : (48 : Nat) ≤ 2 ^ 32 := by decide
    omega
  rw [this, Nat.add_mod_right]

theorem decimalValue_mod (M : Nat) :
    ∀ (l : List Nat) (a b : Nat), a % M = b % M →
      decimalValue a l % M = decimalValue b l % M := by
  intro l
  induction l with
  | nil => intro a b h; exact h
  | cons c rest ih =>
    intro a b h
    apply ih
    rw [Nat.add_mod, Nat.mul_mod, h, ← Nat.mul_mod, ← Nat.add_mod]

theorem findPort_digits_nil (dev c : Nat) :
    MIDIMAP_FindPort_digits dev c [] = digitStep dev c := rfl

theorem findPort_digits_cons (dev c c2 : Nat) (rest : List Nat) :
    MIDIMAP_FindPort_digits dev c (c2 :: rest) =
      if 48 ≤ c2 ∧ c2 ≤ 57 then MIDIMAP_FindPort_digits (digitStep dev c) c2 rest
      else digitStep dev c := rfl

/-- On a string of digits the loop of MIDIMAP_FindPort computes the number
the string denotes, reduced modulo 2^32. -/
theorem findPort_digits_value :
    ∀ (rest : List Nat) (dev c : Nat), 48 ≤ c → (∀ x ∈ rest, 48 ≤ x ∧ x ≤ 57) →
      MIDIMAP_FindPort_digits dev c rest = decimalValue dev (c :: rest) % 2 ^ 32 := by
  intro rest
  induction rest with
  | nil =>
    intro dev c hc _
    rw [findPort_digits_nil, digitStep_digit hc]
    rfl
  | cons c2 rest ih =>
    intro dev c hc hall
    have h2 := hall c2 (List.mem_cons_self _ _)
    rw [findPort_digits_cons, if_pos h2,
      ih (digitStep dev c) c2 h2.1 (fun x hx => hall x (List.mem_cons_of_mem _ hx))]
    show decimalValue (digitStep dev c) (c2 :: rest) % 2 ^ 32
      = decimalValue (dev * 10 + (c - 48)) (c2 :: rest) % 2 ^ 32
    apply decimalValue_mod
    rw [digitStep_digit hc, Nat.mod_mod]

/-- What MIDIMAP_FindPort does with the index form: when no port has the
queried name and the name is # followed by a non-empty string of digits
denoting N, the lookup succeeds exactly when N mod 2^32 is below the
number of ports, and then selects N mod 2^32.  For N below 2^32 this is
the N-th port if in range. -/
theorem findPort_index_form (ports : List MIDIOUTPORT) (c : Nat) (rest : List Nat)
    (hexact : MIDIMAP_FindPort_exact (35 :: c :: rest) ports 0 = none)
    (hc : 48 ≤ c ∧ c ≤ 57) (hall : ∀ x ∈ rest, 48 ≤ x ∧ x ≤ 57) :
    MIDIMAP_FindPort ports (35 :: c :: rest) =
      if decimalValue 0 (c :: rest) % 2 ^ 32 < ports.length
      then some (decimalValue 0 (c :: rest) % 2 ^ 32) else none := by
  unfold MIDIMAP_FindPort
  simp only [hexact, hc, and_self, if_true, findPort_digits_value rest 0 c hc.1 hall]


/-! ## Open on a channel map with unbound channels -/

/-- The loop of modOpen faults as soon as one of the channels it visits is
unbound: it reads ChannelMap[chn]->loaded without testing the pointer. -/
theorem modOpen_loop_faults (cm : Nat → Option Nat) :
    ∀ (l : List Nat) (ports : List MIDIOUTPORT),
      (∃ chn ∈ l, cm chn = none) → l.foldlM (modOpen_channel cm) ports = none := by
  intro l
  induction l with
  | nil => intro ports h; obtain ⟨chn, hmem, _⟩ := h; cases hmem
  | cons c l ih =>
    intro ports h
    cases hstep : modOpen_channel cm ports c with
    | none => simp [List.foldlM, hstep]
    | some ports0 =>
      have hc : cm c ≠ none := by
        intro hnone
        simp [modOpen_channel, hnone] at hstep
      obtain ⟨chn, hmem, hnone⟩ := h
      have hin : chn ∈ l := by
        rcases List.mem_cons.mp hmem with heq | hin
        · subst heq; exact absurd hnone hc
        · exact hin
      have := ih ports0 ⟨chn, hin, hnone⟩
      simp [List.foldlM, hstep, this]

/-- Whenever the settings load and leave one of the 16 channels unbound,
modOpen faults. -/
theorem modOpen_faults_on_unbound (d : Driver) (reg : Registry) {mom : Nat} (hmom : mom ≠ 0)
    (m0 : MIDIMAPDATA) (desc : MIDIOPENDESC) (dwFlags : Nat) {cm1 : Nat → Option Nat}
    (hload : MIDIMAP_LoadSettings d.midiOutPorts reg m0.ChannelMap = (true, cm1))
    {chn : Nat} (hchn : chn < 16) (hnone : cm1 chn = none) :
    modOpen d reg mom m0 (some desc) dwFlags = none := by
  rw [modOpen_eq d reg hmom m0 desc dwFlags hload,
    modOpen_loop_faults cm1 (List.range 16) d.midiOutPorts
      ⟨chn, List.mem_range.mpr hchn, hnone⟩]
  rfl

/-- C20: the code at the failing input.  The scheme holds the single pair
(A, 0b11): the scheme fill succeeds, binds channels 0 and 1 to port A and
leaves channels 2..15 unbound.  modOpen then faults in its loop at channel
2 and yields no session; modClose and modData test the same pointer
before using it. -/
theorem modOpen_faults_on_partial_scheme :
    (MIDIMAP_LoadSettings driverAB.midiOutPorts (schemeRegistry [([65], 3)])
      (sessionAt 0 allToPort0 0).ChannelMap).1 = true ∧
    (List.range 16).map (MIDIMAP_LoadSettings driverAB.midiOutPorts
        (schemeRegistry [([65], 3)]) (sessionAt 0 allToPort0 0).ChannelMap).2
      = [some 0, some 0, none, none, none, none, none, none,
         none, none, none, none, none, none, none, none] ∧
    (modOpen driverAB (schemeRegistry [([65], 3)]) 1000 (sessionAt 0 allToPort0 0)
      (some { hMidi := 0, dwCallback := 0, dwInstance := 0 }) 0).isNone = true ∧
    (modOpen driverAB (schemeRegistry [([65], 0xFFFF)]) 1000 (sessionAt 0 allToPort0 0)
      (some { hMidi := 0, dwCallback := 0, dwInstance := 0 }) 0).isSome = true := by
  decide


/-! ## The running status in reachable states -/

set_option maxRecDepth 100000 in
theorem voice_select_range : ∀ s < 256,
    (s &&& 0xF0 = 0x80 ∨ s &&& 0xF0 = 0x90 ∨ s &&& 0xF0 = 0xA0 ∨ s &&& 0xF0 = 0xB0 ∨
      s &&& 0xF0 = 0xC0 ∨ s &&& 0xF0 = 0xD0 ∨ s &&& 0xF0 = 0xE0) → 0x80 ≤ s ∧ s ≤ 0xEF := by
  decide

theorem dispatch_heapStep {d d1 : Driver} {h : Nat} {m : MIDIMAPDATA} {s v c : Nat}
    (hm : d.heap h = some m)
    (hs : s = m.runningStatus ∨ s < 256)
    (hr : modData_dispatch d h m s v = some (c, d1)) : HeapStep d d1 := by
  unfold modData_dispatch at hr
  cases hcm : m.ChannelMap (s &&& 0x0F) with
  | none =>
    simp only [hcm, Option.some.injEq, Prod.mk.injEq] at hr
    exact Or.inl (by rw [← hr.2])
  | some dev =>
    simp only [hcm] at hr
    split at hr
    · rename_i hsel
      cases hp : d.midiOutPorts[dev]? with
      | none => simp [hp] at hr
      | some port =>
        simp only [hp, Option.some.injEq, Prod.mk.injEq] at hr
        refine Or.inr ⟨h, m, s, hm, ?_, ?_⟩
        · rw [← hr.2]
          by_cases hl : port.loaded > 0
          · simp [hl, storeSession, request_midi_short_heap]
          · simp [hl, storeSession]
        · rcases hs with hs | hs
          · exact Or.inr (Or.inl hs)
          · exact Or.inr (Or.inr (voice_select_range s hs hsel))
    · split at hr
      · split at hr
        · simp only [Option.some.injEq, Prod.mk.injEq] at hr
          refine Or.inr ⟨h, m, 0, hm, ?_, Or.inl rfl⟩
          rw [← hr.2]
          simp [storeSession, request_midi_short_heap]
        · simp only [Option.some.injEq, Prod.mk.injEq] at hr
          exact Or.inl (by rw [← hr.2]; rfl)
      · simp only [Option.some.injEq, Prod.mk.injEq] at hr
        exact Or.inl (by rw [← hr.2])

theorem modData_heapStep {d d1 : Driver} {h v c : Nat}
    (hr : modData d h v = some (c, d1)) : HeapStep d d1 := by
  unfold modData at hr
  by_cases hbad : MIDIMAP_IsBadData d h = true
  · simp only [hbad, if_true, Option.some.injEq, Prod.mk.injEq] at hr
    exact Or.inl (by rw [← hr.2])
  · simp only [hbad, Bool.false_eq_true, if_false] at hr
    cases hm : d.heap h with
    | none => simp [hm] at hr
    | some m =>
      simp only [hm] at hr
      split at hr
      · split at hr
        · exact dispatch_heapStep hm (Or.inl rfl) hr
        · simp only [Option.some.injEq, Prod.mk.injEq] at hr
          exact Or.inl (by rw [← hr.2])
      · exact dispatch_heapStep hm (Or.inr (Nat.mod_lt _ (by decide))) hr

theorem modLongData_heapStep {d d1 : Driver} {h p q c : Nat}
    (hr : modLongData d h p q = some (c, d1)) : HeapStep d d1 := by
  unfold modLongData at hr
  by_cases hbad : MIDIMAP_IsBadData d h = true
  · simp only [hbad, if_true, Option.some.injEq, Prod.mk.injEq] at hr
    exact Or.inl (by rw [← hr.2])
  · simp only [hbad, Bool.false_eq_true, if_false] at hr
    cases hm : d.heap h with
    | none => simp [hm] at hr
    | some m =>
      simp only [hm] at hr
      split at hr
      · cases hr
      · split at hr
        · simp only [Option.some.injEq, Prod.mk.injEq] at hr
          exact Or.inl (by rw [← hr.2])
        · split at hr
          · simp only [Option.some.injEq, Prod.mk.injEq] at hr
            exact Or.inl (by rw [← hr.2])
          · simp only [Option.some.injEq, Prod.mk.injEq] at hr
            refine Or.inr ⟨h, m, 0, hm, ?_, Or.inl rfl⟩
            rw [← hr.2]
            simp [MIDIMAP_NotifyClient, storeFlags, storeSession, request_midi_long]

theorem modPrepare_heap (d : Driver) (h p q : Nat) : (modPrepare d h p q).2.heap = d.heap := by
  unfold modPrepare
  split
  · rfl
  · split
    · rfl
    · dsimp only
      split <;> rfl

theorem modUnprepare_heap (d : Driver) (h p q : Nat) :
    (modUnprepare d h p q).2.heap = d.heap := by
  unfold modUnprepare
  split
  · rfl
  · split
    · rfl
    · dsimp only
      split
      · rfl
      · split <;> rfl

theorem modReset_heapStep (d : Driver) (h : Nat) : HeapStep d (modReset d h).2 := by
  unfold modReset
  split
  · exact Or.inl rfl
  · cases hm : d.heap h with
    | none => exact Or.inl rfl
    | some m =>
      refine Or.inr ⟨h, m, 0, hm, ?_, Or.inl rfl⟩
      simp [request_midi_reset, request_midi_data, setCode, storeSession]

theorem modMessage_heapStep {d : Driver} {call : Call} {r : Nat × Driver}
    (hr : modMessage d call = some r) : HeapStep d r.2 := by
  cases call with
  | data h v => exact modData_heapStep (c := r.1) (by simpa [modMessage] using hr)
  | longData h p q => exact modLongData_heapStep (c := r.1) (by simpa [modMessage] using hr)
  | prepare h p q =>
    simp only [modMessage, Option.some.injEq] at hr
    rw [← hr]; exact Or.inl (modPrepare_heap d h p q)
  | unprepare h p q =>
    simp only [modMessage, Option.some.injEq] at hr
    rw [← hr]; exact Or.inl (modUnprepare_heap d h p q)
  | reset h =>
    simp only [modMessage, Option.some.injEq] at hr
    rw [← hr]; exact modReset_heapStep d h

theorem sessionOk_step {mom : Nat} {d d1 : Driver} (hok : SessionOk mom d)
    (hstep : HeapStep d d1) : SessionOk mom d1 := by
  obtain ⟨m, hm, hself, hrs⟩ := hok
  rcases hstep with hsame | ⟨h, mh, rs, hmh, hupd, hnew⟩
  · exact ⟨m, by rw [hsame]; exact hm, hself, hrs⟩
  · by_cases hh : mom = h
    · subst hh
      rw [hm] at hmh
      cases hmh
      refine ⟨{ m with runningStatus := rs }, by rw [hupd]; simp, hself, ?_⟩
      rcases hnew with h0 | hold | hv
      · exact Or.inl h0
      · show runningStatusOk rs
        rw [hold]; exact hrs
      · exact Or.inr hv
    · exact ⟨m, by rw [hupd, Function.update_noteq hh]; exact hm, hself, hrs⟩

theorem sessionOk_run {mom : Nat} :
    ∀ (calls : List Call) (d d2 : Driver), SessionOk mom d → runCalls d calls = some d2 →
      SessionOk mom d2 := by
  intro calls
  induction calls with
  | nil =>
    intro d d2 hok hrun
    simp only [runCalls, Option.some.injEq] at hrun
    rw [← hrun]; exact hok
  | cons c cs ih =>
    intro d d2 hok hrun
    unfold runCalls at hrun
    cases hc : modMessage d c with
    | none => simp [hc] at hrun
    | some r =>
      simp only [hc] at hrun
      exact ih r.2 d2 (sessionOk_step hok (modMessage_heapStep hc)) hrun

theorem sessionOk_open {d d1 : Driver} {reg : Registry} {mom : Nat} {m0 : MIDIMAPDATA}
    {lpDesc : Option MIDIOPENDESC} {dwFlags : Nat}
    (h : modOpen d reg mom m0 lpDesc dwFlags = some (MMSYSERR_NOERROR, d1)) :
    SessionOk mom d1 := by
  obtain ⟨desc, cm1, ports1, _, _, _, _, hd⟩ := modOpen_success h
  rw [hd]
  exact ⟨{ self := mom, ChannelMap := cm1, midiDesc := desc, runningStatus := 0,
           wCbFlags := HIWORD (dwFlags &&& CALLBACK_TYPEMASK) },
    by simp [request_midi_open, request_midi_data, setCode, MIDIMAP_NotifyClient, storeSession],
    rfl, Or.inl rfl⟩

/-- C19. In every state reached from a successful modOpen by any sequence
of modData, modLongData, modPrepare, modUnprepare and modReset calls, with
any handles and any arguments, the session that was opened is still
readable and its running status is 0 or a value in 0x80..0xEF. -/
theorem running_status_invariant (d d1 d2 : Driver) (reg : Registry) (mom : Nat)
    (m0 : MIDIMAPDATA) (lpDesc : Option MIDIOPENDESC) (dwFlags : Nat) (calls : List Call)
    (hopen : modOpen d reg mom m0 lpDesc dwFlags = some (MMSYSERR_NOERROR, d1))
    (hrun : runCalls d1 calls = some d2) :
    ∃ m, d2.heap mom = some m ∧
      (m.runningStatus = 0 ∨ (0x80 ≤ m.runningStatus ∧ m.runningStatus ≤ 0xEF)) := by
  obtain ⟨m, hm, _, hrs⟩ := sessionOk_run calls d1 d2 (sessionOk_open hopen) hrun
  exact ⟨m, hm, hrs⟩

theorem running_status_invariant_witness :
    ∃ m, afterCalls.heap 1000 = some m ∧
      (m.runningStatus = 0 ∨ (0x80 ≤ m.runningStatus ∧ m.runningStatus ≤ 0xEF)) :=
  running_status_invariant freshDriver openedDriver afterCalls (defaultRegistry none) 1000
    (sessionAt 0 onlyChannel1 0) (some { hMidi := 0, dwCallback := 0, dwInstance := 0 }) 0
    exampleCalls rfl rfl


/-- One iteration of the loop of modOpen that runs through leaves the port
of its channel with a non-zero loaded, and keeps every non-zero loaded. -/
theorem modOpen_channel_loaded {cm : Nat → Option Nat} {ports ports0 : List MIDIOUTPORT}
    {chn : Nat} (h : modOpen_channel cm ports chn = some ports0) :
    (∀ dev, cm chn = some dev → ∃ p, ports0[dev]? = some p ∧ p.loaded ≠ 0) ∧
    (∀ (j : Nat) (p : MIDIOUTPORT), ports[j]? = some p → p.loaded ≠ 0 →
      ∃ p0 : MIDIOUTPORT, ports0[j]? = some p0 ∧ p0.loaded ≠ 0) := by
  unfold modOpen_channel at h
  cases hc : cm chn with
  | none => simp [hc] at h
  | some dev =>
    cases hp : ports[dev]? with
    | none => simp [hc, hp] at h
    | some p =>
      simp only [hc, hp] at h
      have hlt : dev < ports.length := by
        rcases List.getElem?_eq_some_iff.mp hp with ⟨hlt, _⟩
        exact hlt
      by_cases hl : p.loaded ≠ 0
      · simp only [if_pos hl, Option.some.injEq] at h
        subst h
        exact ⟨fun dev1 h1 => by cases h1; exact ⟨p, hp, hl⟩, fun j q hq hql => ⟨q, hq, hql⟩⟩
      · simp only [if_neg hl, Option.some.injEq] at h
        subst h
        refine ⟨fun dev1 h1 => ?_, fun j q hq hql => ?_⟩
        · cases h1
          exact ⟨{ p with loaded := 1 }, by simp [List.getElem?_set, hlt], by simp⟩
        · by_cases hj : dev = j
          · subst hj
            rw [hp] at hq
            cases hq
            exact absurd hql hl
          · exact ⟨q, by rw [List.getElem?_set_ne hj]; exact hq, hql⟩

/-- When the loop of modOpen runs through, every port bound to one of the
channels it visited has a non-zero loaded afterwards. -/
theorem modOpen_loop_loaded (cm : Nat → Option Nat) :
    ∀ (l : List Nat) (ports ports1 : List MIDIOUTPORT),
      l.foldlM (modOpen_channel cm) ports = some ports1 →
      (∀ chn ∈ l, ∀ dev, cm chn = some dev → ∃ p, ports1[dev]? = some p ∧ p.loaded ≠ 0) ∧
      (∀ (j : Nat) (p : MIDIOUTPORT), ports[j]? = some p → p.loaded ≠ 0 →
        ∃ p1 : MIDIOUTPORT, ports1[j]? = some p1 ∧ p1.loaded ≠ 0) := by
  intro l
  induction l with
  | nil =>
    intro ports ports1 h
    simp only [List.foldlM, pure, Option.some.injEq] at h
    subst h
    exact ⟨fun chn hmem => absurd hmem (List.not_mem_nil chn), fun j p hp hl => ⟨p, hp, hl⟩⟩
  | cons c l ih =>
    intro ports ports1 h
    cases hstep : modOpen_channel cm ports c with
    | none => simp [List.foldlM, hstep] at h
    | some ports0 =>
      have hrest : l.foldlM (modOpen_channel cm) ports0 = some ports1 := by
        simpa [List.foldlM, hstep] using h
      obtain ⟨hset, hkeep⟩ := modOpen_channel_loaded hstep
      obtain ⟨ihset, ihkeep⟩ := ih ports0 ports1 hrest
      refine ⟨fun chn hmem dev hdev => ?_, fun j p hp hl => ?_⟩
      · rcases List.mem_cons.mp hmem with heq | hin
        · subst heq
          obtain ⟨p0, hp0, hl0⟩ := hset dev hdev
          exact ihkeep dev p0 hp0 hl0
        · exact ihset chn hin dev hdev
      · obtain ⟨p0, hp0, hl0⟩ := hkeep j p hp hl
        exact ihkeep j p0 hp0 hl0

/-- The part of C20 the code does satisfy: after a successful modOpen the
session is live, all 16 channels are bound, and every port bound to a
channel has a non-zero loaded. -/
theorem modOpen_success_loaded {d d1 : Driver} {reg : Registry} {mom : Nat} {m0 : MIDIMAPDATA}
    {lpDesc : Option MIDIOPENDESC} {dwFlags : Nat}
    (h : modOpen d reg mom m0 lpDesc dwFlags = some (MMSYSERR_NOERROR, d1)) :
    ∃ m, d1.heap mom = some m ∧ m.self = mom ∧
      ∀ chn, chn < 16 → ∃ dev p, m.ChannelMap chn = some dev ∧
        d1.midiOutPorts[dev]? = some p ∧ p.loaded ≠ 0 := by
  obtain ⟨desc, cm1, ports1, _, _, _, hfold, hd⟩ := modOpen_success h
  obtain ⟨hset, _⟩ := modOpen_loop_loaded cm1 (List.range 16) d.midiOutPorts ports1 hfold
  rw [hd]
  refine ⟨{ self := mom, ChannelMap := cm1, midiDesc := desc, runningStatus := 0,
            wCbFlags := HIWORD (dwFlags &&& CALLBACK_TYPEMASK) },
    by simp [request_midi_open, request_midi_data, setCode, MIDIMAP_NotifyClient, storeSession],
    rfl, ?_⟩
  intro chn hchn
  cases hc : cm1 chn with
  | none =>
    have := modOpen_loop_faults cm1 (List.range 16) d.midiOutPorts
      ⟨chn, List.mem_range.mpr hchn, hc⟩
    rw [this] at hfold
    cases hfold
  | some dev =>
    obtain ⟨p, hp, hl⟩ := hset chn (List.mem_range.mpr hchn) dev hc
    exact ⟨dev, p, hc, hp, hl⟩


/-! ## The default branch of the switch -/

set_option maxRecDepth 100000 in
theorem selectsCase_of_status : ∀ s < 256, 0x80 ≤ s →
    (s &&& 0xF0 = 0x80 ∨ s &&& 0xF0 = 0x90 ∨ s &&& 0xF0 = 0xA0 ∨ s &&& 0xF0 = 0xB0 ∨
      s &&& 0xF0 = 0xC0 ∨ s &&& 0xF0 = 0xD0 ∨ s &&& 0xF0 = 0xE0 ∨ s &&& 0xF0 = 0xF0) := by
  decide

/-- The switch status on a live session. -/
theorem switchStatus_valid {d : Driver} {mom : Nat} {m : MIDIMAPDATA}
    (hm : d.heap mom = some m) (hs : m.self = mom) (v : Nat) :
    modData_switchStatus d mom v =
      if v % 256 < 0x80 then
        if m.runningStatus ≠ 0 then
          match m.ChannelMap (m.runningStatus &&& 0x0F) with
          | none => none
          | some _ => some m.runningStatus
        else none
      else
        match m.ChannelMap (v % 256 &&& 0x0F) with
        | none => none
        | some _ => some (v % 256) := by
  have h256 : v % 65536 % 256 = v % 256 := by omega
  unfold modData_switchStatus
  rw [isBadData_valid hm hs]
  simp only [Bool.false_eq_true, if_false, hm, LOBYTE, LOWORD, h256]
  by_cases h1 : v % 256 < 0x80
  · by_cases h2 : m.runningStatus ≠ 0
    · simp only [if_pos h1, if_pos h2]
    · simp only [if_pos h1, if_neg h2]
  · simp only [if_neg h1]

/-- On a session that is live with a running status of 0 or a voice
status, the status at the switch is a status byte and selects a case. -/
theorem switchStatus_selects {mom : Nat} {d : Driver} (hok : SessionOk mom d) {v s : Nat}
    (hsw : modData_switchStatus d mom v = some s) :
    0x80 ≤ s ∧ s ≤ 0xFF ∧ selectsCase s := by
  obtain ⟨m, hm, hself, hrs⟩ := hok
  rw [switchStatus_valid hm hself] at hsw
  have key : (v % 256 < 0x80 ∧ m.runningStatus ≠ 0 ∧ s = m.runningStatus) ∨
      (¬ v % 256 < 0x80 ∧ s = v % 256) := by
    by_cases h1 : v % 256 < 0x80
    · rw [if_pos h1] at hsw
      by_cases h2 : m.runningStatus ≠ 0
      · rw [if_pos h2] at hsw
        cases hc : m.ChannelMap (m.runningStatus &&& 0x0F) with
        | none => simp [hc] at hsw
        | some dev =>
          simp only [hc, Option.some.injEq] at hsw
          exact Or.inl ⟨h1, h2, hsw.symm⟩
      · rw [if_neg h2] at hsw
        cases hsw
    · rw [if_neg h1] at hsw
      cases hc : m.ChannelMap (v % 256 &&& 0x0F) with
      | none => simp [hc] at hsw
      | some dev =>
        simp only [hc, Option.some.injEq] at hsw
        exact Or.inr ⟨h1, hsw.symm⟩
  have hrange : 0x80 ≤ s ∧ s ≤ 0xFF := by
    rcases key with ⟨_, hne, hseq⟩ | ⟨hge, hseq⟩
    · rcases hrs with h0 | ⟨hlo, hhi⟩
      · exact absurd h0 hne
      · rw [hseq]; omega
    · have : v % 256 < 256 := Nat.mod_lt _ (by decide)
      rw [hseq]; omega
  exact ⟨hrange.1, hrange.2, selectsCase_of_status s (by omega) hrange.1⟩

/-- When modData reaches its switch it continues in modData_dispatch with
the switch status, on a bound channel. -/
theorem modData_at_switch {d : Driver} {mom : Nat} {m : MIDIMAPDATA}
    (hm : d.heap mom = some m) (hs : m.self = mom) {v s : Nat}
    (hsw : modData_switchStatus d mom v = some s) :
    (∃ dev, m.ChannelMap (s &&& 0x0F) = some dev) ∧
    modData d mom v =
      modData_dispatch d mom m s (if v % 256 < 0x80 then (v % 65536) <<< 8 ||| s else v) := by
  rw [switchStatus_valid hm hs] at hsw
  rw [modData_valid hm hs]
  by_cases h1 : v % 256 < 0x80
  · rw [if_pos h1] at hsw ⊢
    by_cases h2 : m.runningStatus ≠ 0
    · rw [if_pos h2] at hsw ⊢
      cases hc : m.ChannelMap (m.runningStatus &&& 0x0F) with
      | none => simp [hc] at hsw
      | some dev =>
        simp only [hc, Option.some.injEq] at hsw
        subst hsw
        exact ⟨⟨dev, hc⟩, by rw [if_pos h1]⟩
    · rw [if_neg h2] at hsw
      cases hsw
  · rw [if_neg h1] at hsw ⊢
    cases hc : m.ChannelMap (v % 256 &&& 0x0F) with
    | none => simp [hc] at hsw
    | some dev =>
      simp only [hc, Option.some.injEq] at hsw
      subst hsw
      exact ⟨⟨dev, hc⟩, by rw [if_neg h1]⟩

/-- C21. In every state reached from a successful modOpen by any sequence
of modData, modLongData, modPrepare, modUnprepare and modReset calls, for
every value given to modData on the opened session: whenever modData
reaches its switch, the status it switches on (the status byte of the
value, or the running status put in place of a data byte) is in
0x80..0xFF and selects one of the case labels 0x80..0xE0 or 0xF0, so the
default branch is not taken. -/
theorem default_branch_unreachable (d d1 d2 : Driver) (reg : Registry) (mom : Nat)
    (m0 : MIDIMAPDATA) (lpDesc : Option MIDIOPENDESC) (dwFlags : Nat) (calls : List Call)
    (v s : Nat)
    (hopen : modOpen d reg mom m0 lpDesc dwFlags = some (MMSYSERR_NOERROR, d1))
    (hrun : runCalls d1 calls = some d2)
    (hsw : modData_switchStatus d2 mom v = some s) :
    0x80 ≤ s ∧ s ≤ 0xFF ∧ selectsCase s ∧
    ∃ m, d2.heap mom = some m ∧ (∃ dev, m.ChannelMap (s &&& 0x0F) = some dev) ∧
      modData d2 mom v =
        modData_dispatch d2 mom m s (if v % 256 < 0x80 then (v % 65536) <<< 8 ||| s else v) := by
  have hok := sessionOk_run calls d1 d2 (sessionOk_open hopen) hrun
  obtain ⟨h1, h2, h3⟩ := switchStatus_selects hok hsw
  obtain ⟨m, hm, hself, _⟩ := hok
  obtain ⟨hb, hd⟩ := modData_at_switch hm hself hsw
  exact ⟨h1, h2, h3, m, hm, hb, hd⟩

theorem default_branch_unreachable_witness :
    0x80 ≤ 0xC5 ∧ 0xC5 ≤ 0xFF ∧ selectsCase 0xC5 ∧
    ∃ m, afterCalls.heap 1000 = some m ∧ (∃ dev, m.ChannelMap (0xC5 &&& 0x0F) = some dev) ∧
      modData afterCalls 1000 0x0007 =
        modData_dispatch afterCalls 1000 m 0xC5
          (if 0x0007 % 256 < 0x80 then (0x0007 % 65536) <<< 8 ||| 0xC5 else 0x0007) :=
  default_branch_unreachable freshDriver openedDriver afterCalls (defaultRegistry none) 1000
    (sessionAt 0 onlyChannel1 0) (some { hMidi := 0, dwCallback := 0, dwInstance := 0 }) 0
    exampleCalls 0x0007 0xC5 rfl rfl (by decide)

/-! ## The range of the index a lookup returns -/

/-- C22. For every port table and every name, whatever its form (an exact
name, the sign # with any number of digits, also when their value wraps
around 2^32, or with other characters after the digits): whenever
MIDIMAP_FindPort reports success, the index it returns is strictly below
the number of ports. -/
theorem findPort_index_in_range (ports : List MIDIOUTPORT) (name : List Nat) (dev : Nat)
    (h : MIDIMAP_FindPort ports name = some dev) : dev < ports.length :=
  findPort_lt_length h

theorem findPort_index_in_range_witness :
    (0 < [winlatorPort 0 none].length ∧ 1 < portsAB.length) ∧
    MIDIMAP_FindPort [winlatorPort 0 none] nameHash2pow32 = some 0 ∧
    MIDIMAP_FindPort [winlatorPort 0 none] nameHash0x = some 0 ∧
    MIDIMAP_FindPort portsAB [66] = some 1 :=
  ⟨⟨findPort_index_in_range [winlatorPort 0 none] nameHash2pow32 0 (by decide),
     findPort_index_in_range portsAB [66] 1 (by decide)⟩,
   by decide, by decide, by decide⟩

/-- The scheme fill stores only indices that MIDIMAP_FindPort returned:
every channel it leaves bound points into the port table. -/
theorem schemeFill_in_range (ports : List MIDIOUTPORT) :
    ∀ (keys : List SchemeKey) (cm : Nat → Option Nat),
      (∀ i dev, i < 16 → cm i = some dev → dev < ports.length) →
      ∀ i dev, i < 16 → schemeFill ports keys cm i = some dev → dev < ports.length := by
  intro keys
  induction keys with
  | nil => intro cm h; exact h
  | cons k keys ih =>
    intro cm h
    apply ih (schemeStep ports cm k)
    intro i dev hi hdev
    unfold schemeStep at hdev
    split at hdev
    · exact h i dev hi hdev
    · cases hp : k.port with
      | none => simp only [hp] at hdev; exact h i dev hi hdev
      | some port =>
        cases hf : MIDIMAP_FindPort ports port with
        | none => simp only [hp, hf] at hdev; exact h i dev hi hdev
        | some dev0 =>
          cases hc : k.Channels with
          | none => simp only [hp, hf, hc] at hdev; exact h i dev hi hdev
          | some mask =>
            simp only [hp, hf, hc, schemeBind_apply] at hdev
            split at hdev
            · cases hdev
              exact findPort_lt_length hf
            · exact h i dev hi hdev

/-- After MIDIMAP_LoadSettingsScheme every bound channel among the 16
points into the port table. -/
theorem loadSettingsScheme_in_range (ports : List MIDIOUTPORT) (reg : Registry)
    (cm : Nat → Option Nat) (scheme : List Nat) (i dev : Nat) (hi : i < 16)
    (h : (MIDIMAP_LoadSettingsScheme ports reg cm scheme).2 i = some dev) :
    dev < ports.length := by
  unfold MIDIMAP_LoadSettingsScheme at h
  cases hr : reg.Schemes with
  | none => simp [hr, hi] at h
  | some schemes =>
    cases hs : schemes scheme with
    | none => simp [hr, hs, hi] at h
    | some keys =>
      simp only [hr, hs] at h
      exact schemeFill_in_range ports keys _ (fun j dv hj hdv => by simp [hj] at hdv) i dev hi h


/-! ## Sessions as the driver holds them -/

theorem dispatch_ports {d d1 : Driver} {h : Nat} {m : MIDIMAPDATA} {s v c : Nat}
    (hr : modData_dispatch d h m s v = some (c, d1)) : d1.midiOutPorts = d.midiOutPorts := by
  unfold modData_dispatch at hr
  cases hcm : m.ChannelMap (s &&& 0x0F) with
  | none =>
    simp only [hcm, Option.some.injEq, Prod.mk.injEq] at hr
    rw [← hr.2]
  | some dev =>
    simp only [hcm] at hr
    split at hr
    · cases hp : d.midiOutPorts[dev]? with
      | none => simp [hp] at hr
      | some port =>
        simp only [hp, Option.some.injEq, Prod.mk.injEq] at hr
        rw [← hr.2]
        by_cases hl : port.loaded > 0
        · simp [hl, storeSession, request_midi_short_ports]
        · simp [hl, storeSession]
    · split at hr
      · split at hr
        · simp only [Option.some.injEq, Prod.mk.injEq] at hr
          rw [← hr.2]; rfl
        · simp only [Option.some.injEq, Prod.mk.injEq] at hr
          rw [← hr.2]; rfl
      · simp only [Option.some.injEq, Prod.mk.injEq] at hr
        rw [← hr.2]

theorem modData_ports {d d1 : Driver} {h v c : Nat}
    (hr : modData d h v = some (c, d1)) : d1.midiOutPorts = d.midiOutPorts := by
  unfold modData at hr
  by_cases hbad : MIDIMAP_IsBadData d h = true
  · simp only [hbad, if_true, Option.some.injEq, Prod.mk.injEq] at hr
    rw [← hr.2]
  · simp only [hbad, Bool.false_eq_true, if_false] at hr
    cases hm : d.heap h with
    | none => simp [hm] at hr
    | some m =>
      simp only [hm] at hr
      split at hr
      · split at hr
        · exact dispatch_ports hr
        · simp only [Option.some.injEq, Prod.mk.injEq] at hr
          rw [← hr.2]
      · exact dispatch_ports hr

theorem modLongData_ports {d d1 : Driver} {h p q c : Nat}
    (hr : modLongData d h p q = some (c, d1)) : d1.midiOutPorts = d.midiOutPorts := by
  unfold modLongData at hr
  by_cases hbad : MIDIMAP_IsBadData d h = true
  · simp only [hbad, if_true, Option.some.injEq, Prod.mk.injEq] at hr
    rw [← hr.2]
  · simp only [hbad, Bool.false_eq_true, if_false] at hr
    cases hm : d.heap h with
    | none => simp [hm] at hr
    | some m =>
      simp only [hm] at hr
      split at hr
      · cases hr
      · split at hr
        · simp only [Option.some.injEq, Prod.mk.injEq] at hr
          rw [← hr.2]
        · split at hr
          · simp only [Option.some.injEq, Prod.mk.injEq] at hr
            rw [← hr.2]
          · simp only [Option.some.injEq, Prod.mk.injEq] at hr
            rw [← hr.2]; rfl

theorem modPrepare_ports (d : Driver) (h p q : Nat) :
    (modPrepare d h p q).2.midiOutPorts = d.midiOutPorts := by
  unfold modPrepare
  split
  · rfl
  · split
    · rfl
    · dsimp only
      split <;> rfl

theorem modUnprepare_ports (d : Driver) (h p q : Nat) :
    (modUnprepare d h p q).2.midiOutPorts = d.midiOutPorts := by
  unfold modUnprepare
  split
  · rfl
  · split
    · rfl
    · dsimp only
      split
      · rfl
      · split <;> rfl

theorem modReset_ports (d : Driver) (h : Nat) :
    (modReset d h).2.midiOutPorts = d.midiOutPorts := by
  unfold modReset
  split
  · rfl
  · cases hm : d.heap h <;> rfl

/-- None of the five messages writes the port table. -/
theorem modMessage_ports {d : Driver} {call : Call} {r : Nat × Driver}
    (hr : modMessage d call = some r) : r.2.midiOutPorts = d.midiOutPorts := by
  cases call with
  | data h v => exact modData_ports (c := r.1) (by simpa [modMessage] using hr)
  | longData h p q => exact modLongData_ports (c := r.1) (by simpa [modMessage] using hr)
  | prepare h p q =>
    simp only [modMessage, Option.some.injEq] at hr
    rw [← hr]; exact modPrepare_ports d h p q
  | unprepare h p q =>
    simp only [modMessage, Option.some.injEq] at hr
    rw [← hr]; exact modUnprepare_ports d h p q
  | reset h =>
    simp only [modMessage, Option.some.injEq] at hr
    rw [← hr]; exact modReset_ports d h

theorem sessionWired_step {mom : Nat} {d d1 : Driver} (hok : SessionWired mom d)
    (hstep : HeapStep d d1) (hports : d1.midiOutPorts = d.midiOutPorts) :
    SessionWired mom d1 := by
  obtain ⟨m, hm, hself, hrs, hcm⟩ := hok
  rcases hstep with hsame | ⟨h, mh, rs, hmh, hupd, hnew⟩
  · exact ⟨m, by rw [hsame]; exact hm, hself, hrs, by rw [hports]; exact hcm⟩
  · by_cases hh : mom = h
    · subst hh
      rw [hm] at hmh
      cases hmh
      refine ⟨{ m with runningStatus := rs }, by rw [hupd]; simp, hself, ?_,
        by rw [hports]; exact hcm⟩
      rcases hnew with h0 | hold | hv
      · exact Or.inl h0
      · show runningStatusOk rs
        rw [hold]; exact hrs
      · exact Or.inr hv
    · exact ⟨m, by rw [hupd, Function.update_noteq hh]; exact hm, hself, hrs,
        by rw [hports]; exact hcm⟩

theorem sessionWired_run {mom : Nat} :
    ∀ (calls : List Call) (d d2 : Driver), SessionWired mom d → runCalls d calls = some d2 →
      SessionWired mom d2 := by
  intro calls
  induction calls with
  | nil =>
    intro d d2 hok hrun
    simp only [runCalls, Option.some.injEq] at hrun
    rw [← hrun]; exact hok
  | cons c cs ih =>
    intro d d2 hok hrun
    unfold runCalls at hrun
    cases hc : modMessage d c with
    | none => simp [hc] at hrun
    | some r =>
      simp only [hc] at hrun
      exact ih r.2 d2
        (sessionWired_step hok (modMessage_heapStep hc) (modMessage_ports hc)) hrun

/-- A successful modOpen leaves a session with all 16 channels bound to
ports of the table: its loop read ChannelMap[chn]->loaded for each. -/
theorem sessionWired_open {d d1 : Driver} {reg : Registry} {mom : Nat} {m0 : MIDIMAPDATA}
    {lpDesc : Option MIDIOPENDESC} {dwFlags : Nat}
    (h : modOpen d reg mom m0 lpDesc dwFlags = some (MMSYSERR_NOERROR, d1)) :
    SessionWired mom d1 := by
  obtain ⟨m, hm, hself, hcm⟩ := modOpen_success_loaded h
  obtain ⟨m1, hm1, _, hrs⟩ := sessionOk_open h
  rw [hm] at hm1
  cases hm1
  refine ⟨m, hm, hself, hrs, fun chn hchn => ?_⟩
  obtain ⟨dev, p, hc, hp, _⟩ := hcm chn hchn
  exact ⟨dev, hc, (List.getElem?_eq_some_iff.mp hp).1⟩

/-- C3. In every state reached from a successful modOpen by any sequence
of modData, modLongData, modPrepare, modUnprepare and modReset calls
(whatever channel map the settings gave the session and whatever its
running status is by then), for every value whose status byte is in
0xF0..0xF7, modData on the session returns MMSYSERR_NOERROR and the
running status afterwards is 0. -/
theorem system_common_clears_running_status (d d1 d2 : Driver) (reg : Registry) (mom : Nat)
    (m0 : MIDIMAPDATA) (lpDesc : Option MIDIOPENDESC) (dwFlags : Nat) (calls : List Call)
    (v : Nat)
    (hopen : modOpen d reg mom m0 lpDesc dwFlags = some (MMSYSERR_NOERROR, d1))
    (hrun : runCalls d1 calls = some d2)
    (h1 : 0xF0 ≤ v % 256) (h2 : v % 256 ≤ 0xF7) :
    codeOf (modData d2 mom v) = some MMSYSERR_NOERROR ∧
    runningStatusOf mom (modData d2 mom v) = some 0 := by
  obtain ⟨m, hm, hself, _, hcm⟩ := sessionWired_run calls d1 d2 (sessionWired_open hopen) hrun
  obtain ⟨dev, hdev, _⟩ := hcm (v % 256 % 16) (Nat.mod_lt _ (by decide))
  exact system_common_on_bound_entry d2 mom m v dev hm hself h1 h2 hdev

theorem system_common_clears_running_status_witness :
    codeOf (modData afterCalls 1000 0xF1) = some MMSYSERR_NOERROR ∧
    runningStatusOf 1000 (modData afterCalls 1000 0xF1) = some 0 ∧
    (afterCalls.heap 1000).map (fun m => m.runningStatus) = some 0xC5 :=
  have h := system_common_clears_running_status freshDriver openedDriver afterCalls
    (defaultRegistry none) 1000 (sessionAt 0 onlyChannel1 0)
    (some { hMidi := 0, dwCallback := 0, dwInstance := 0 }) 0 exampleCalls 0xF1 rfl rfl
    (by decide) (by decide)
  ⟨h.1, h.2, by decide⟩


/-! ## Running-status continuation -/

theorem frameStep_none (d : Driver) : FrameStep d d := Or.inl ⟨rfl, rfl⟩

theorem frameStep_code (d : Driver) {code : Nat} (hcode : code ≠ REQUEST_CODE_MIDI_SHORT)
    {d1 : Driver} (hsent : d1.sent = (request_midi_data (setCode d code)).sent)
    (hbuf : payloadOf d1 = payloadOf (request_midi_data (setCode d code))) :
    FrameStep d d1 :=
  Or.inr (Or.inl ⟨code, hcode, by rw [hsent, request_data_sent],
    by rw [hbuf, request_data_payload]⟩)

theorem frameStep_short (d : Driver) (v : Nat) {d1 : Driver}
    (hsent : d1.sent = (request_midi_short d v).sent)
    (hbuf : payloadOf d1 = payloadOf (request_midi_short d v)) : FrameStep d d1 :=
  Or.inr (Or.inr ⟨v, by rw [hsent, request_midi_short_sent],
    by rw [hbuf, request_midi_short_payload]⟩)

theorem dispatch_frameStep {d d1 : Driver} {h : Nat} {m : MIDIMAPDATA} {s v c : Nat}
    (hr : modData_dispatch d h m s v = some (c, d1)) : FrameStep d d1 := by
  unfold modData_dispatch at hr
  cases hcm : m.ChannelMap (s &&& 0x0F) with
  | none =>
    simp only [hcm, Option.some.injEq, Prod.mk.injEq] at hr
    rw [← hr.2]; exact frameStep_none d
  | some dev =>
    simp only [hcm] at hr
    split at hr
    · cases hp : d.midiOutPorts[dev]? with
      | none => simp [hp] at hr
      | some port =>
        simp only [hp, Option.some.injEq, Prod.mk.injEq] at hr
        rw [← hr.2]
        by_cases hl : port.loaded > 0
        · rw [if_pos hl]
          exact frameStep_short d _ rfl rfl
        · rw [if_neg hl]
          exact Or.inl ⟨rfl, rfl⟩
    · split at hr
      · split at hr
        · simp only [Option.some.injEq, Prod.mk.injEq] at hr
          rw [← hr.2]
          exact frameStep_short d _ rfl rfl
        · simp only [Option.some.injEq, Prod.mk.injEq] at hr
          rw [← hr.2]
          exact frameStep_short d _ rfl rfl
      · simp only [Option.some.injEq, Prod.mk.injEq] at hr
        rw [← hr.2]; exact frameStep_none d

theorem modData_frameStep {d d1 : Driver} {h v c : Nat}
    (hr : modData d h v = some (c, d1)) : FrameStep d d1 := by
  unfold modData at hr
  by_cases hbad : MIDIMAP_IsBadData d h = true
  · simp only [hbad, if_true, Option.some.injEq, Prod.mk.injEq] at hr
    rw [← hr.2]; exact frameStep_none d
  · simp only [hbad, Bool.false_eq_true, if_false] at hr
    cases hm : d.heap h with
    | none => simp [hm] at hr
    | some m =>
      simp only [hm] at hr
      split at hr
      · split at hr
        · exact dispatch_frameStep hr
        · simp only [Option.some.injEq, Prod.mk.injEq] at hr
          rw [← hr.2]; exact frameStep_none d
      · exact dispatch_frameStep hr

theorem modLongData_frameStep {d d1 : Driver} {h p q c : Nat}
    (hr : modLongData d h p q = some (c, d1)) : FrameStep d d1 := by
  unfold modLongData at hr
  by_cases hbad : MIDIMAP_IsBadData d h = true
  · simp only [hbad, if_true, Option.some.injEq, Prod.mk.injEq] at hr
    rw [← hr.2]; exact frameStep_none d
  · simp only [hbad, Bool.false_eq_true, if_false] at hr
    cases hm : d.heap h with
    | none => simp [hm] at hr
    | some m =>
      simp only [hm] at hr
      split at hr
      · cases hr
      · split at hr
        · simp only [Option.some.injEq, Prod.mk.injEq] at hr
          rw [← hr.2]; exact frameStep_none d
        · split at hr
          · simp only [Option.some.injEq, Prod.mk.injEq] at hr
            rw [← hr.2]; exact frameStep_none d
          · simp only [Option.some.injEq, Prod.mk.injEq] at hr
            rw [← hr.2]
            exact Or.inl ⟨rfl, rfl⟩

theorem modPrepare_frameStep (d : Driver) (h p q : Nat) :
    FrameStep d (modPrepare d h p q).2 := by
  unfold modPrepare
  split
  · exact frameStep_none d
  · split
    · exact frameStep_none d
    · dsimp only
      split
      · exact frameStep_code d (by decide) rfl rfl
      · exact frameStep_code d (by decide) rfl rfl

theorem modUnprepare_frameStep (d : Driver) (h p q : Nat) :
    FrameStep d (modUnprepare d h p q).2 := by
  unfold modUnprepare
  split
  · exact frameStep_none d
  · split
    · exact frameStep_none d
    · dsimp only
      split
      · exact frameStep_code d (by decide) rfl rfl
      · split
        · exact frameStep_code d (by decide) rfl rfl
        · exact frameStep_code d (by decide) rfl rfl

theorem modReset_frameStep (d : Driver) (h : Nat) : FrameStep d (modReset d h).2 := by
  unfold modReset
  split
  · exact frameStep_none d
  · cases hm : d.heap h with
    | none => exact frameStep_none d
    | some m => exact @frameStep_code d REQUEST_CODE_MIDI_RESET (by decide) _ rfl rfl

theorem modOpen_frameStep {d d1 : Driver} {reg : Registry} {mom : Nat} {m0 : MIDIMAPDATA}
    {lpDesc : Option MIDIOPENDESC} {dwFlags c : Nat}
    (hr : modOpen d reg mom m0 lpDesc dwFlags = some (c, d1)) : FrameStep d d1 := by
  by_cases hmom : mom = 0
  · simp only [modOpen, hmom, if_true, Option.some.injEq, Prod.mk.injEq] at hr
    rw [← hr.2]; exact frameStep_none d
  · cases lpDesc with
    | none =>
      simp only [modOpen, hmom, if_false, Option.some.injEq, Prod.mk.injEq] at hr
      rw [← hr.2]; exact frameStep_none d
    | some desc =>
      cases hl : MIDIMAP_LoadSettings d.midiOutPorts reg m0.ChannelMap with
      | mk ok cm1 =>
        rw [modOpen_eq d reg hmom m0 desc dwFlags hl] at hr
        cases ok with
        | false =>
          simp only [Bool.false_eq_true, if_false, Option.some.injEq, Prod.mk.injEq] at hr
          rw [← hr.2]; exact frameStep_none d
        | true =>
          simp only [if_true] at hr
          cases hf : (List.range 16).foldlM (modOpen_channel cm1) d.midiOutPorts with
          | none => simp [hf] at hr
          | some ports1 =>
            simp only [hf, Option.some.injEq, Prod.mk.injEq] at hr
            rw [← hr.2]
            exact @frameStep_code d REQUEST_CODE_MIDI_OPEN (by decide) _ rfl rfl

theorem modClose_frameStep {d d1 : Driver} {mom : Nat} {freed : Option MIDIMAPDATA} {c : Nat}
    (hr : modClose d mom freed = some (c, d1)) : FrameStep d d1 := by
  unfold modClose at hr
  by_cases hbad : MIDIMAP_IsBadData d mom = true
  · simp only [hbad, if_true, Option.some.injEq, Prod.mk.injEq] at hr
    rw [← hr.2]; exact frameStep_none d
  · simp only [hbad, Bool.false_eq_true, if_false] at hr
    cases hm : d.heap mom with
    | none => simp [hm] at hr
    | some m =>
      simp only [hm] at hr
      cases hf : (List.range 16).foldlM (modClose_channel m.ChannelMap) d.midiOutPorts with
      | none => simp [hf] at hr
      | some ports1 =>
        simp only [hf, Option.some.injEq, Prod.mk.injEq] at hr
        rw [← hr.2]
        exact @frameStep_code d REQUEST_CODE_MIDI_CLOSE (by decide) _ rfl rfl

theorem driverEvent_frameStep {d : Driver} {e : Event} {r : Nat × Driver}
    (hr : driverEvent d e = some r) : FrameStep d r.2 := by
  cases e with
  | message call =>
    cases call with
    | data h v => exact modData_frameStep (c := r.1) (by simpa [driverEvent, modMessage] using hr)
    | longData h p q =>
      exact modLongData_frameStep (c := r.1) (by simpa [driverEvent, modMessage] using hr)
    | prepare h p q =>
      simp only [driverEvent, modMessage, Option.some.injEq] at hr
      rw [← hr]; exact modPrepare_frameStep d h p q
    | unprepare h p q =>
      simp only [driverEvent, modMessage, Option.some.injEq] at hr
      rw [← hr]; exact modUnprepare_frameStep d h p q
    | reset h =>
      simp only [driverEvent, modMessage, Option.some.injEq] at hr
      rw [← hr]; exact modReset_frameStep d h
  | opened reg mom m0 lpDesc dwFlags =>
    exact modOpen_frameStep (c := r.1) (by simpa [driverEvent] using hr)
  | closed mom freed =>
    exact modClose_frameStep (c := r.1) (by simpa [driverEvent] using hr)

theorem carries_cons {p : List Nat} {f : List Nat} {frames : List (List Nat)}
    (hf : f.head? ≠ some REQUEST_CODE_MIDI_SHORT → f.tail = p)
    (hrest : CarriesRecentPayload
      (if f.head? = some REQUEST_CODE_MIDI_SHORT then f.tail else p) frames) :
    CarriesRecentPayload p (f :: frames) := by
  intro pre x post hsplit hx
  cases pre with
  | nil =>
    simp only [List.nil_append, List.cons.injEq] at hsplit
    rw [← hsplit.1] at hx ⊢
    exact hf hx
  | cons a pre1 =>
    simp only [List.cons_append, List.cons.injEq] at hsplit
    have h := hrest pre1 x post hsplit.2 hx
    rw [h, ← hsplit.1]
    by_cases hs : f.head? = some REQUEST_CODE_MIDI_SHORT
    · simp only [recentShortPayload, if_pos hs]
    · simp only [recentShortPayload, if_neg hs]

/-- Over any run of operations, the datagrams added are threaded by the
payload: each one with a code other than 1 carries the payload of the most
recent short-message datagram of the run before it, or the bytes the
buffer held at the start when there is none. -/
theorem runEvents_frames :
    ∀ (events : List Event) (d d1 : Driver), runEvents d events = some d1 →
      ∃ frames, d1.sent = d.sent ++ frames ∧ CarriesRecentPayload (payloadOf d) frames := by
  intro events
  induction events with
  | nil =>
    intro d d1 hrun
    simp only [runEvents, Option.some.injEq] at hrun
    refine ⟨[], by rw [← hrun]; simp, ?_⟩
    intro pre f post hsplit _
    simp at hsplit
  | cons e es ih =>
    intro d d1 hrun
    unfold runEvents at hrun
    cases he : driverEvent d e with
    | none => simp [he] at hrun
    | some r =>
      simp only [he] at hrun
      obtain ⟨frames1, hsent1, hcar1⟩ := ih r.2 d1 hrun
      rcases driverEvent_frameStep he with ⟨hs, hp⟩ | ⟨code, hcode, hs, hp⟩ | ⟨v, hs, hp⟩
      · exact ⟨frames1, by rw [hsent1, hs], by rw [← hp]; exact hcar1⟩
      · refine ⟨(code :: payloadOf d) :: frames1, by rw [hsent1, hs]; simp, ?_⟩
        apply carries_cons
        · intro _; rfl
        · have hne : ¬ (code :: payloadOf d).head? = some REQUEST_CODE_MIDI_SHORT := by
            simpa using hcode
          rw [if_neg hne, ← hp]
          exact hcar1
      · refine ⟨(REQUEST_CODE_MIDI_SHORT :: le64 v) :: frames1, by rw [hsent1, hs]; simp, ?_⟩
        apply carries_cons
        · intro h; exact absurd rfl h
        · have hpos : (REQUEST_CODE_MIDI_SHORT :: le64 v).head? = some REQUEST_CODE_MIDI_SHORT :=
            rfl
          rw [if_pos hpos]
          show CarriesRecentPayload (le64 v) frames1
          rw [← hp]
          exact hcar1

/-- C17, amended.  For every sequence of operations on the driver (open,
close, short and long messages, prepare, unprepare, reset, with any
arguments) started in any state: the datagrams the run adds are such that
each one with a request code other than 1 has bytes 1..8 equal to the
payload of the most recent short-message datagram of the run before it,
and equal to bytes 1..8 of send_buffer as they were at the start when no
short message came before it. -/
theorem non_short_frames_carry_recent_payload (d d1 : Driver) (events : List Event)
    (hrun : runEvents d events = some d1) :
    ∃ frames, d1.sent = d.sent ++ frames ∧
      ∀ (pre : List (List Nat)) (f : List Nat) (post : List (List Nat)),
        frames = pre ++ f :: post → f.head? ≠ some REQUEST_CODE_MIDI_SHORT →
          f.tail = recentShortPayload (payloadOf d) pre :=
  runEvents_frames events d d1 hrun

theorem non_short_frames_carry_recent_payload_witness :
    (∃ frames, afterEvents.sent = attachedDriver.sent ++ frames ∧
      ∀ (pre : List (List Nat)) (f : List Nat) (post : List (List Nat)),
        frames = pre ++ f :: post → f.head? ≠ some REQUEST_CODE_MIDI_SHORT →
          f.tail = recentShortPayload (payloadOf attachedDriver) pre) ∧
    afterEvents.sent =
      [[5, 0xAB, 0xAB, 0xAB, 0xAB, 0xAB, 0xAB, 0xAB, 0xAB],
       [3, 0xAB, 0xAB, 0xAB, 0xAB, 0xAB, 0xAB, 0xAB, 0xAB],
       [1, 0x90, 0x3C, 0x40, 0, 0, 0, 0, 0],
       [7, 0x90, 0x3C, 0x40, 0, 0, 0, 0, 0],
       [1, 0xF8, 0, 0, 0, 0, 0, 0, 0],
       [4, 0xF8, 0, 0, 0, 0, 0, 0, 0],
       [6, 0xF8, 0, 0, 0, 0, 0, 0, 0]] :=
  ⟨non_short_frames_carry_recent_payload attachedDriver afterEvents exampleEvents rfl,
    by decide⟩

/-! ## Patch tables -/

theorem noPatch_set {ports : List MIDIOUTPORT} {dev : Nat} {q : MIDIOUTPORT}
    (h : ∀ p ∈ ports, p.lpbPatch = none) (hq : q.lpbPatch = none) :
    ∀ p ∈ ports.set dev q, p.lpbPatch = none := by
  intro p hp
  rcases List.mem_or_eq_of_mem_set hp with hin | heq
  · exact h p hin
  · rw [heq]; exact hq

theorem modOpen_channel_noPatch {cm : Nat → Option Nat} {ports ports0 : List MIDIOUTPORT}
    {chn : Nat} (hstep : modOpen_channel cm ports chn = some ports0)
    (h : ∀ p ∈ ports, p.lpbPatch = none) : ∀ p ∈ ports0, p.lpbPatch = none := by
  unfold modOpen_channel at hstep
  cases hc : cm chn with
  | none => simp [hc] at hstep
  | some dev =>
    cases hp : ports[dev]? with
    | none => simp [hc, hp] at hstep
    | some q =>
      simp only [hc, hp] at hstep
      have hq : q.lpbPatch = none := h q (List.getElem?_mem hp)
      split at hstep
      · cases hstep; exact h
      · cases hstep; exact noPatch_set h hq

theorem modClose_channel_noPatch {cm : Nat → Option Nat} {ports ports0 : List MIDIOUTPORT}
    {i : Nat} (hstep : modClose_channel cm ports i = some ports0)
    (h : ∀ p ∈ ports, p.lpbPatch = none) : ∀ p ∈ ports0, p.lpbPatch = none := by
  unfold modClose_channel at hstep
  cases hc : cm i with
  | none => simp only [hc, Option.some.injEq] at hstep; rw [← hstep]; exact h
  | some dev =>
    cases hp : ports[dev]? with
    | none => simp [hc, hp] at hstep
    | some q =>
      simp only [hc, hp] at hstep
      have hq : q.lpbPatch = none := h q (List.getElem?_mem hp)
      split at hstep
      · cases hstep; exact noPatch_set h hq
      · cases hstep; exact h

theorem foldlM_noPatch (step : List MIDIOUTPORT → Nat → Option (List MIDIOUTPORT))
    (hstep : ∀ ports ports0 i, step ports i = some ports0 →
      (∀ p ∈ ports, p.lpbPatch = none) → ∀ p ∈ ports0, p.lpbPatch = none) :
    ∀ (l : List Nat) (ports ports1 : List MIDIOUTPORT), l.foldlM step ports = some ports1 →
      (∀ p ∈ ports, p.lpbPatch = none) → ∀ p ∈ ports1, p.lpbPatch = none := by
  intro l
  induction l with
  | nil =>
    intro ports ports1 hf h
    simp only [List.foldlM, pure, Option.some.injEq] at hf
    rw [← hf]; exact h
  | cons i l ih =>
    intro ports ports1 hf h
    cases hs : step ports i with
    | none => simp [List.foldlM, hs] at hf
    | some ports0 =>
      have hrest : l.foldlM step ports0 = some ports1 := by
        simpa [List.foldlM, hs] using hf
      exact ih ports0 ports1 hrest (hstep ports ports0 i hs h)

theorem modOpen_noPatch {d d1 : Driver} {reg : Registry} {mom : Nat} {m0 : MIDIMAPDATA}
    {lpDesc : Option MIDIOPENDESC} {dwFlags c : Nat}
    (hr : modOpen d reg mom m0 lpDesc dwFlags = some (c, d1)) (h : NoPatchTable d) :
    NoPatchTable d1 := by
  by_cases hmom : mom = 0
  · simp only [modOpen, hmom, if_true, Option.some.injEq, Prod.mk.injEq] at hr
    rw [← hr.2]; exact h
  · cases lpDesc with
    | none =>
      simp only [modOpen, hmom, if_false, Option.some.injEq, Prod.mk.injEq] at hr
      rw [← hr.2]; exact h
    | some desc =>
      cases hl : MIDIMAP_LoadSettings d.midiOutPorts reg m0.ChannelMap with
      | mk ok cm1 =>
        rw [modOpen_eq d reg hmom m0 desc dwFlags hl] at hr
        cases ok with
        | false =>
          simp only [Bool.false_eq_true, if_false, Option.some.injEq, Prod.mk.injEq] at hr
          rw [← hr.2]; exact h
        | true =>
          simp only [if_true] at hr
          cases hf : (List.range 16).foldlM (modOpen_channel cm1) d.midiOutPorts with
          | none => simp [hf] at hr
          | some ports1 =>
            simp only [hf, Option.some.injEq, Prod.mk.injEq] at hr
            rw [← hr.2]
            exact foldlM_noPatch (modOpen_channel cm1)
              (fun _ _ _ hs hh => modOpen_channel_noPatch hs hh) _ _ _ hf h

theorem modClose_noPatch {d d1 : Driver} {mom : Nat} {freed : Option MIDIMAPDATA} {c : Nat}
    (hr : modClose d mom freed = some (c, d1)) (h : NoPatchTable d) : NoPatchTable d1 := by
  unfold modClose at hr
  by_cases hbad : MIDIMAP_IsBadData d mom = true
  · simp only [hbad, if_true, Option.some.injEq, Prod.mk.injEq] at hr
    rw [← hr.2]; exact h
  · simp only [hbad, Bool.false_eq_true, if_false] at hr
    cases hm : d.heap mom with
    | none => simp [hm] at hr
    | some m =>
      simp only [hm] at hr
      cases hf : (List.range 16).foldlM (modClose_channel m.ChannelMap) d.midiOutPorts with
      | none => simp [hf] at hr
      | some ports1 =>
        simp only [hf, Option.some.injEq, Prod.mk.injEq] at hr
        rw [← hr.2]
        exact foldlM_noPatch (modClose_channel m.ChannelMap)
          (fun _ _ _ hs hh => modClose_channel_noPatch hs hh) _ _ _ hf h

theorem driverEvent_noPatch {d : Driver} {e : Event} {r : Nat × Driver}
    (hr : driverEvent d e = some r) (h : NoPatchTable d) : NoPatchTable r.2 := by
  cases e with
  | message call =>
    have hports : r.2.midiOutPorts = d.midiOutPorts :=
      modMessage_ports (by simpa [driverEvent] using hr)
    unfold NoPatchTable
    rw [hports]; exact h
  | opened reg mom m0 lpDesc dwFlags =>
    exact modOpen_noPatch (c := r.1) (by simpa [driverEvent] using hr) h
  | closed mom freed =>
    exact modClose_noPatch (c := r.1) (by simpa [driverEvent] using hr) h

theorem runEvents_noPatch :
    ∀ (events : List Event) (d d1 : Driver), runEvents d events = some d1 →
      NoPatchTable d → NoPatchTable d1 := by
  intro events
  induction events with
  | nil =>
    intro d d1 hrun h
    simp only [runEvents, Option.some.injEq] at hrun
    rw [← hrun]; exact h
  | cons e es ih =>
    intro d d1 hrun h
    unfold runEvents at hrun
    cases he : driverEvent d e with
    | none => simp [he] at hrun
    | some r =>
      simp only [he] at hrun
      exact ih r.2 d1 hrun (driverEvent_noPatch he h)

/-- In every state reached from MIDIMAP_drvOpen by any sequence of
operations, no port has a patch table: lpbPatch is set to NULL when the
port is created and no operation writes it, so the patch substitution of
modData never runs in the driver. -/
theorem no_patch_table_reached (d0 d1 : Driver) (fresh : Nat → Nat) (events : List Event)
    (hempty : d0.midiOutPorts = [])
    (hrun : runEvents (MIDIMAP_drvOpen d0 fresh).2 events = some d1) :
    ∀ p ∈ d1.midiOutPorts, p.lpbPatch = none := by
  apply runEvents_noPatch events _ d1 hrun
  intro p hp
  simp only [MIDIMAP_drvOpen, hempty, List.mem_singleton] at hp
  rw [hp]; rfl

end Midimap
